import Mathlib

/-! MD_YM2413: register/state model of the YM2413 driver

Shallow embedding of `src/src/MD_YM2413.cpp`, `src/src/MD_YM2413_hw.cpp` and the
declarations of `src/src/MD_YM2413.h`.

Conventions of the embedding
* `uint8_t`, `uint16_t`, `uint32_t` values are natural numbers; where the C++
  code converts an `int` expression to an unsigned type the conversion is
  written out (`u8`, `toU8`, `% 2 ^ 16`, `% 2 ^ 32`).
* Expressions that C++ evaluates in `int` and that can be negative
  (`VOL(v) = 15 - v`, `~(1 << k)`, `instr - P_HI_HAT`) are evaluated in `Int`.
  The operators `|` and `&` act bit by bit, so the low byte of their result is
  the `|` or `&` of the low bytes of their operands; the model applies them to
  those low bytes (`toU8` of each `Int` operand).
* The object state is the record `Device`; every method takes the state and
  returns the new one.  `millis()` is the extra argument `now`.
* `send` is the only routine that touches the bus.  Each call is one register
  write; the model appends the pair `(address, data)` to `Device.writes`.
-/

namespace MD_YM2413

/-! ## Constants of the class declaration -/

abbrev VOL_OFF : Nat := 0x0
abbrev VOL_MAX : Nat := 0xf
abbrev MIN_OCTAVE : Nat := 1
abbrev MAX_OCTAVE : Nat := 8

abbrev PERC_CHAN_BASE : Nat := 6
abbrev CH_HH : Nat := PERC_CHAN_BASE + 0
abbrev CH_TCY : Nat := PERC_CHAN_BASE + 1
abbrev CH_TOM : Nat := PERC_CHAN_BASE + 2
abbrev CH_SD : Nat := PERC_CHAN_BASE + 3
abbrev CH_BD : Nat := PERC_CHAN_BASE + 4

/-! Enumeration `instrument_t`, by its numeric values. -/

abbrev I_CUSTOM : Nat := 0
abbrev I_VIOLIN : Nat := 1
abbrev I_GUITAR : Nat := 2
abbrev I_PIANO : Nat := 3
abbrev I_FLUTE : Nat := 4
abbrev I_CLARINET : Nat := 5
abbrev I_OBOE : Nat := 6
abbrev I_TRUMPET : Nat := 7
abbrev I_ORGAN : Nat := 8
abbrev I_HORN : Nat := 9
abbrev I_SYNTH : Nat := 10
abbrev I_HARPSICHORD : Nat := 11
abbrev I_VIBRAPHONE : Nat := 12
abbrev I_SYNTH_BASS : Nat := 13
abbrev I_ACOUSTIC_BASS : Nat := 14
abbrev I_EGUITAR : Nat := 15
abbrev P_HI_HAT : Nat := 16 + 0
abbrev P_TOP_CYMBAL : Nat := 16 + 1
abbrev P_TOM_TOM : Nat := 16 + 2
abbrev P_SNARE_DRUM : Nat := 16 + 3
abbrev P_BASS_DRUM : Nat := 16 + 4
abbrev I_UNDEFINED : Nat := 0xff

abbrev ALL_INSTR_CHANNELS : Nat := 9
abbrev PART_INSTR_CHANNELS : Nat := 6
abbrev PERC_CHANNELS : Nat := 5
abbrev MAX_CHANNELS : Nat := PART_INSTR_CHANNELS + PERC_CHANNELS
abbrev DEFAULT_INSTRUMENT : Nat := I_PIANO

abbrev R_RHYTHM_CTL_REG : Nat := 0x0e
abbrev R_RHYTHM_SET_BIT : Nat := 5
abbrev R_TEST_CTL_REG : Nat := 0x0f
abbrev R_FNUM_BASE_REG : Nat := 0x10
abbrev R_INST_CTL_BASE_REG : Nat := 0x20
abbrev R_INST_SUSTAIN_BIT : Nat := 5
abbrev R_INST_KEY_BIT : Nat := 4
abbrev R_INST_OCTAVE_BIT : Nat := 1
abbrev R_INST_FNUM_BIT : Nat := 0
abbrev R_CHAN_CTL_BASE_REG : Nat := 0x30
abbrev R_CHAN_INST_BIT : Nat := 4
abbrev R_CHAN_VOL_BIT : Nat := 0
abbrev R_PERC_VOL_BD_REG : Nat := 0x36
abbrev R_PERC_VOL_BD_BIT : Nat := 0
abbrev R_PERC_VOL_HHSD_REG : Nat := 0x37
abbrev R_PERC_VOL_HH_BIT : Nat := 4
abbrev R_PERC_VOL_SD_BIT : Nat := 0
abbrev R_PERC_VOL_TOMTCY_REG : Nat := 0x38
abbrev R_PERC_VOL_TOM_BIT : Nat := 4
abbrev R_PERC_VOL_TCY_BIT : Nat := 0

/-- Value of the macro `CLOCK_HZ` of `MD_YM2413_lib.h`. -/
abbrev CLOCK_HZ : Nat := 3579545

/-! ## Data model -/

/-- Enumeration `channelState_t`. -/
inductive channelState_t where
  | IDLE
  | SUSTAIN
deriving DecidableEq, Repr

/-- Record `channelData_t`: the per channel tracking data. -/
structure channelData_t where
  instrument : Nat
  sustain : Bool
  vol : Nat
  frequency : Nat
  octave : Nat
  fNum : Nat
  duration : Nat
  state : channelState_t
  timeBase : Nat
deriving DecidableEq, Repr

/-- State of one `MD_YM2413` object together with the bus it drives.

`C i` for `i < MAX_CHANNELS` is the array element `_C[i]`.  C++ gives no meaning
to `_C[i]` for larger `i`; the model keeps such slots apart from everything
else and no result below depends on them.

`writes` is the sequence of register writes issued so far, oldest first.

`addrUninit` stands for the value found in the local variable `addr` of
`setVolume` when no branch of its `switch` assigns it.  C++ leaves that value
indeterminate: it is an input of each call, no method sets it, and it need not
be the same at the next call.  A statement about two such calls is therefore
made with the field set before each of them. -/
structure Device where
  C : Nat → channelData_t
  enablePercussion : Bool
  lastAddress : Nat
  writes : List (Nat × Nat)
  addrUninit : Nat

/-- Conversion of a non-negative value to `uint8_t`. -/
def u8 (n : Nat) : Nat := n % 256

/-- Conversion of an `int` value to `uint8_t`. -/
def toU8 (x : Int) : Nat := (x % 256).toNat

/-- Macro `VOL(v)`, evaluated in `int`. -/
def VOL (v : Nat) : Int := 15 - (v : Int)

/-- Assignment to members of `_C[chan]`. -/
def modC (s : Device) (chan : Nat) (f : channelData_t → channelData_t) : Device :=
  { s with C := fun i => if i = chan then f (s.C chan) else s.C i }

/-! ## Hardware related methods (`MD_YM2413_hw.cpp`) -/

/-- Table `_fNumTable`. -/
def fNumTable : List Nat :=
  [172, 183, 194, 205, 217, 230, 244, 258, 274, 290, 307, 326]

/-- Table `_blockTable`. -/
def blockTable : List Nat :=
  [0, 65, 130, 261, 523, 1046, 2093, 4186]

/-- Loop of `calcBlock`: the index of the first table entry above `freq`, scanning
from index `i`. -/
def calcBlockScan (freq : Nat) : List Nat → Nat → Option Nat
  | [], _ => none
  | b :: rest, i => if freq < b then some i else calcBlockScan freq rest (i + 1)

/-- Method `calcBlock`. -/
def calcBlock (freq : Nat) : Nat :=
  (calcBlockScan freq blockTable 0).getD (blockTable.length - 1)

/-- Method `calcFNum`: the product is formed in `uint32_t`, the result is returned
as `uint16_t`.  (`19 - block` is meaningful for `block ≤ 19` only.) -/
def calcFNum (freq block : Nat) : Nat :=
  let fsam := CLOCK_HZ / 72
  let fn := (freq * (1 <<< (19 - block))) % 2 ^ 32 / fsam
  fn % 2 ^ 16

/-- Method `buildReg2x`. -/
def buildReg2x (susOn keyOn : Bool) (octave fNum : Nat) : Nat :=
  let b := 0
  let b := if susOn then u8 (b ||| (1 <<< R_INST_SUSTAIN_BIT)) else b
  let b := if keyOn then u8 (b ||| (1 <<< R_INST_KEY_BIT)) else b
  let b := u8 (b ||| ((octave &&& 0x7) <<< R_INST_OCTAVE_BIT))
  let b := if fNum &&& 0x100 ≠ 0 then u8 (b ||| (1 <<< R_INST_FNUM_BIT)) else b
  b

/-- Method `buildReg0e`.  The shift count `instr - P_HI_HAT` is an `int`; C++
defines the shift only for counts `0 .. 14`. -/
def buildReg0e (s : Device) (enable : Bool) (instr : Nat) (keyOn : Bool) : Nat :=
  let b := 0
  let b := if enable then u8 (b ||| (1 <<< R_RHYTHM_SET_BIT)) else b
  if instr ≠ I_UNDEFINED then
    let b := (List.range PERC_CHANNELS).foldl
      (fun b i => if (s.C i).state ≠ channelState_t.IDLE then u8 (b ||| (1 <<< i)) else b) b
    let k : Int := (instr : Int) - (P_HI_HAT : Int)
    let b := b &&& toU8 (~~~ ((1 : Int) <<< k))
    let b := if keyOn then b ||| toU8 ((1 : Int) <<< k) else b
    b
  else b

/-- Method `send`: one register write.  The address phase is repeated only when
the address differs from the remembered one; either way the data byte goes to
register `addr`. -/
def send (s : Device) (addr data : Nat) : Device :=
  { s with
    lastAddress := if s.lastAddress ≠ addr then addr else s.lastAddress
    writes := s.writes ++ [(addr, data)] }

/-! ## General methods (`MD_YM2413.cpp` and the inline methods of the header) -/

/-- Method `isPercussion()`. -/
def isPercussion (s : Device) : Bool := s.enablePercussion

/-- Method `countChannels`. -/
def countChannels (s : Device) : Nat :=
  if isPercussion s then MAX_CHANNELS else ALL_INSTR_CHANNELS

/-- Method `isPercussion(chan)`. -/
def isPercussionChan (s : Device) (chan : Nat) : Bool :=
  isPercussion s && decide (chan ≥ PERC_CHAN_BASE) && decide (chan < countChannels s)

/-- Method `isIdle`. -/
def isIdle (s : Device) (chan : Nat) : Bool :=
  if chan < countChannels s then decide ((s.C chan).state = channelState_t.IDLE) else false

/-- Method `getInstrument`. -/
def getInstrument (s : Device) (chan : Nat) : Nat :=
  if chan < countChannels s then (s.C chan).instrument else I_UNDEFINED

/-- Method `getVolume`. -/
def getVolume (s : Device) (chan : Nat) : Nat :=
  if chan < countChannels s then (s.C chan).vol else 0

/-- Method `setSustain`. -/
def setSustain (s : Device) (chan : Nat) (sustain : Bool) : Device :=
  if chan < countChannels s then modC s chan (fun c => { c with sustain := sustain }) else s

/-- Method `write`. -/
def write (s : Device) (addr data : Nat) : Device := send s addr data

/-- Method `loadInstrument`: `data` holds the eight bytes `data[0] .. data[7]`. -/
def loadInstrument (s : Device) (data : List Nat) : Device :=
  (List.range 8).foldl (fun s i => send s i (data.getD i 0)) s

/-- Channel control byte `(instrument << R_CHAN_INST_BIT) | (VOL(vol) << R_CHAN_VOL_BIT)`
as it reaches `send`. -/
def chanCtl (instrument vol : Nat) : Nat :=
  toU8 ((instrument : Int) <<< (R_CHAN_INST_BIT : Int)) |||
    toU8 (VOL vol <<< (R_CHAN_VOL_BIT : Int))

/-- Method `setInstrument`: the returned flag and the new state. -/
def setInstrument (s : Device) (chan instr vol : Nat) : Bool × Device :=
  if chan ≥ countChannels s ∨ (isPercussion s = false ∧ instr ≥ P_HI_HAT) then
    (false, s)
  else
    let s := modC s chan (fun c => { c with instrument := instr })
    let s := modC s chan (fun c => { c with vol := vol })
    let s :=
      if isPercussion s = false ∨ (isPercussion s = true ∧ chan < PART_INSTR_CHANNELS) then
        send s (u8 (R_CHAN_CTL_BASE_REG + chan)) (chanCtl (s.C chan).instrument (s.C chan).vol)
      else s
    (true, s)

/-- Method `setVolume(chan, v)`. -/
def setVolume (s : Device) (chan v : Nat) : Device :=
  if chan ≥ countChannels s then s
  else
    let v := if v > VOL_MAX then VOL_MAX else v
    let s := modC s chan (fun c => { c with vol := v })
    if isPercussion s = false ∨ (isPercussion s = true ∧ chan < PERC_CHAN_BASE) then
      send s (u8 (R_CHAN_CTL_BASE_REG + chan)) (chanCtl (s.C chan).instrument (s.C chan).vol)
    else
      let instr := (s.C chan).instrument
      if instr = P_BASS_DRUM then
        send s R_PERC_VOL_BD_REG
          (toU8 (VOL (s.C (CH_BD - PERC_CHAN_BASE)).vol <<< (R_PERC_VOL_BD_BIT : Int)))
      else if instr = P_HI_HAT ∨ instr = P_SNARE_DRUM then
        let data := toU8 (VOL (s.C (CH_HH - PERC_CHAN_BASE)).vol <<< (R_PERC_VOL_HH_BIT : Int))
        let data := data |||
          toU8 (VOL (s.C (CH_SD - PERC_CHAN_BASE)).vol <<< (R_PERC_VOL_SD_BIT : Int))
        send s R_PERC_VOL_HHSD_REG data
      else if instr = P_TOM_TOM ∨ instr = P_TOP_CYMBAL then
        let data := toU8 (VOL (s.C (CH_TOM - PERC_CHAN_BASE)).vol <<< (R_PERC_VOL_TOM_BIT : Int))
        let data := data |||
          toU8 (VOL (s.C (CH_TCY - PERC_CHAN_BASE)).vol <<< (R_PERC_VOL_TCY_BIT : Int))
        send s R_PERC_VOL_TOMTCY_REG data
      else
        send s s.addrUninit 0

/-- Loop of `setVolume(v)`, from channel `i` on; `fuel` bounds the number of
iterations (the counter is an `int8_t`). -/
def setVolumeAllLoop (v : Nat) : Nat → Nat → Device → Device
  | 0, _, s => s
  | fuel + 1, i, s =>
    if i < countChannels s then setVolumeAllLoop v fuel (i + 1) (setVolume s i v) else s

/-- Method `setVolume(v)`. -/
def setVolumeAll (s : Device) (v : Nat) : Device := setVolumeAllLoop v 128 0 s

/-- Loop of `initChannels`, from channel `i` on; `fuel` bounds the number of
iterations (the counter is a `uint8_t`). -/
def initChannelsLoop : Nat → Nat → Device → Device
  | 0, _, s => s
  | fuel + 1, i, s =>
    if i < countChannels s then
      let s := (setInstrument s i DEFAULT_INSTRUMENT VOL_MAX).2
      let s := modC s i (fun c => { c with state := channelState_t.IDLE })
      initChannelsLoop fuel (i + 1) s
    else s

/-- Method `initChannels`. -/
def initChannels (s : Device) : Device := initChannelsLoop 256 0 s

/-- Method `setPercussion`. -/
def setPercussion (s : Device) (enable : Bool) : Device :=
  let s := { s with enablePercussion := enable }
  let x := buildReg0e s enable I_UNDEFINED false
  let s := send s R_RHYTHM_CTL_REG x
  if enable then
    let s := (List.range' PERC_CHAN_BASE (MAX_CHANNELS - PERC_CHAN_BASE)).foldl
      (fun s i => (setInstrument s i (P_HI_HAT + i - PERC_CHAN_BASE) VOL_MAX).2) s
    let s := send s 0x16 0x20
    let s := send s 0x17 0x50
    let s := send s 0x18 0xc0
    let s := send s 0x26 0x07
    let s := send s 0x27 0x05
    let s := send s 0x28 0x01
    s
  else
    initChannels s

/-- Method `begin` (the pin set-up has no effect on the state modelled here). -/
def begin (s : Device) : Device :=
  let s := send s R_TEST_CTL_REG 0
  setPercussion s false

/-- Method `noteOn(chan, freq, vol, duration)`; `now` is the value of `millis()`. -/
def noteOn (s : Device) (now chan freq vol duration : Nat) : Device :=
  if chan > countChannels s then s
  else
    let s := setVolume s chan vol
    let s :=
      if isPercussionChan s chan = false then
        let s := modC s chan (fun c => { c with octave := calcBlock freq })
        let s := modC s chan (fun c => { c with fNum := calcFNum freq c.octave })
        let data := buildReg2x (s.C chan).sustain true (s.C chan).octave (s.C chan).fNum
        let s := send s (u8 (R_FNUM_BASE_REG + chan)) ((s.C chan).fNum &&& 0xff)
        send s (u8 (R_INST_CTL_BASE_REG + chan)) data
      else
        let data := buildReg0e s true (s.C chan).instrument true
        send s R_RHYTHM_CTL_REG data
    modC s chan (fun c =>
      { c with frequency := freq, duration := duration, timeBase := now,
               state := channelState_t.SUSTAIN })

/-- Method `noteOn(chan, octave, note, vol, duration)`; `now` is the value of
`millis()`. -/
def noteOnNote (s : Device) (now chan octave note vol duration : Nat) : Device :=
  if note ≥ fNumTable.length ∨ chan ≥ countChannels s then s
  else
    let s :=
      if isPercussionChan s chan = false then
        let octave := if octave < MIN_OCTAVE then MIN_OCTAVE else octave
        let octave := if octave > MAX_OCTAVE then MAX_OCTAVE else octave
        let s := modC s chan (fun c => { c with octave := octave })
        let note := min note (fNumTable.length - 1)
        let s := modC s chan (fun c => { c with fNum := fNumTable.getD note 0 })
        let data := buildReg2x (s.C chan).sustain true (s.C chan).octave (s.C chan).fNum
        let s := send s (u8 (R_FNUM_BASE_REG + chan)) ((s.C chan).fNum &&& 0xff)
        send s (u8 (R_INST_CTL_BASE_REG + chan)) data
      else
        let data := buildReg0e s true (s.C chan).instrument true
        send s R_RHYTHM_CTL_REG data
    let s := setVolume s chan vol
    modC s chan (fun c =>
      { c with frequency := 0, duration := duration, timeBase := now,
               state := channelState_t.SUSTAIN })

/-- Method `noteOff`. -/
def noteOff (s : Device) (chan : Nat) : Device :=
  let s := setVolume s chan VOL_OFF
  let s :=
    if isPercussionChan s chan = false then
      let data := buildReg2x (s.C chan).sustain false (s.C chan).octave (s.C chan).fNum
      send s (u8 (R_INST_CTL_BASE_REG + chan)) data
    else
      let data := buildReg0e s true (s.C chan).instrument false
      send s R_RHYTHM_CTL_REG data
  modC s chan (fun c => { c with state := channelState_t.IDLE })

/-- Loop of `run`, from channel `chan` on; `fuel` bounds the number of iterations
(the counter is a `uint8_t`).  The elapsed time is formed in `uint32_t`. -/
def runLoop (now : Nat) : Nat → Nat → Device → Device
  | 0, _, s => s
  | fuel + 1, chan, s =>
    if chan < countChannels s then
      let s :=
        if (s.C chan).state = channelState_t.SUSTAIN ∧ (s.C chan).duration ≠ 0 then
          if (now + 2 ^ 32 - (s.C chan).timeBase) % 2 ^ 32 ≥ (s.C chan).duration then
            noteOff s chan
          else s
        else s
      runLoop now fuel (chan + 1) s
    else s

/-- Method `run`; `now` is the value of `millis()`, below `2 ^ 32`. -/
def run (s : Device) (now : Nat) : Device := runLoop now 256 0 s

/-- A device whose memory is all zero, as for an object with static storage. -/
def blank : Device :=
  { C := fun _ =>
      { instrument := 0, sustain := false, vol := 0, frequency := 0, octave := 0,
        fNum := 0, duration := 0, state := channelState_t.IDLE, timeBase := 0 }
    enablePercussion := false
    lastAddress := 0
    writes := []
    addrUninit := 0 }

/-- The device after `begin()`. -/
def started : Device := begin blank

/-- The device after `begin()` followed by `setPercussion(true)`. -/
def percussionOn : Device := setPercussion started true

/-- Percussion mode with the hi-hat (channel 6) sounding. -/
def hiHatOn : Device := noteOn percussionOn 0 CH_HH 440 15 0

/-- Percussion mode with melodic channel 0 sounding and every percussion channel
silent. -/
def melodyOn : Device := noteOn percussionOn 0 0 440 15 0

/-- A snare note (channel 9) started in percussion mode, then `setPercussion(false)`:
channel 9 is no longer a valid channel but its slot still says `SUSTAIN`. -/
def staleSnare : Device := setPercussion (noteOn percussionOn 0 CH_SD 440 15 0) false

/-- Percussion mode after `setInstrument(6, I_PIANO, 10)`: the hi-hat channel holds a
melodic instrument. -/
def pianoOnHiHat : Device := (setInstrument percussionOn CH_HH I_PIANO 10).2

/-- The device `s` at a call of `setVolume` that finds the value `a` in its
unassigned local `addr`. -/
def withAddr (s : Device) (a : Nat) : Device := { s with addrUninit := a }

/-- Specification predicate for `run`: channel `c` is sounding a timed note whose
duration has elapsed at time `now`, the elapsed time being taken in `uint32_t`. -/
def noteDue (s : Device) (now c : Nat) : Bool :=
  decide ((s.C c).state = channelState_t.SUSTAIN ∧ (s.C c).duration ≠ 0 ∧
    (now + 2 ^ 32 - (s.C c).timeBase) % 2 ^ 32 ≥ (s.C c).duration)

/-- The note-off transition on a channel record: silence and `IDLE`. -/
def silenced (c : channelData_t) : channelData_t :=
  { c with vol := VOL_OFF, state := channelState_t.IDLE }

/-- The fields of a channel record that decide when `run` turns the note off:
playback state, duration and start time. -/
def timing (c : channelData_t) : channelState_t × Nat × Nat :=
  (c.state, c.duration, c.timeBase)

/-- The register write `(address, data)` that `setVolume` issues on channel `chan`,
read off the state in which the new volume is already stored. -/
def volumeWrite (s : Device) (chan : Nat) : Nat × Nat :=
  if isPercussion s = false ∨ (isPercussion s = true ∧ chan < PERC_CHAN_BASE) then
    (u8 (R_CHAN_CTL_BASE_REG + chan), chanCtl (s.C chan).instrument (s.C chan).vol)
  else if (s.C chan).instrument = P_BASS_DRUM then
    (R_PERC_VOL_BD_REG,
      toU8 (VOL (s.C (CH_BD - PERC_CHAN_BASE)).vol <<< (R_PERC_VOL_BD_BIT : Int)))
  else if (s.C chan).instrument = P_HI_HAT ∨ (s.C chan).instrument = P_SNARE_DRUM then
    (R_PERC_VOL_HHSD_REG,
      toU8 (VOL (s.C (CH_HH - PERC_CHAN_BASE)).vol <<< (R_PERC_VOL_HH_BIT : Int)) |||
        toU8 (VOL (s.C (CH_SD - PERC_CHAN_BASE)).vol <<< (R_PERC_VOL_SD_BIT : Int)))
  else if (s.C chan).instrument = P_TOM_TOM ∨ (s.C chan).instrument = P_TOP_CYMBAL then
    (R_PERC_VOL_TOMTCY_REG,
      toU8 (VOL (s.C (CH_TOM - PERC_CHAN_BASE)).vol <<< (R_PERC_VOL_TOM_BIT : Int)) |||
        toU8 (VOL (s.C (CH_TCY - PERC_CHAN_BASE)).vol <<< (R_PERC_VOL_TCY_BIT : Int)))
  else
    (s.addrUninit, 0)

/-- The register write `(address, data)` with which `noteOn` (`keyOn = true`) and
`noteOff` (`keyOn = false`) key channel `chan`, read off the state in which the
octave and the frequency number are already stored. -/
def keyWrite (s : Device) (chan : Nat) (keyOn : Bool) : Nat × Nat :=
  if isPercussionChan s chan = false then
    (u8 (R_INST_CTL_BASE_REG + chan),
      buildReg2x (s.C chan).sustain keyOn (s.C chan).octave (s.C chan).fNum)
  else
    (R_RHYTHM_CTL_REG, buildReg0e s true (s.C chan).instrument keyOn)

/-- Calls a host program can make while a note is sounding, other than `noteOn`
and `noteOff`. -/
inductive Call where
  | run (now : Nat)
  | setVolume (chan v : Nat)
  | setVolumeAll (v : Nat)
  | setInstrument (chan instr vol : Nat)
  | setSustain (chan : Nat) (sustain : Bool)

/-- Effect of one call on the device. -/
def perform (s : Device) : Call → Device
  | Call.run now => run s now
  | Call.setVolume chan v => setVolume s chan v
  | Call.setVolumeAll v => setVolumeAll s v
  | Call.setInstrument chan instr vol => (setInstrument s chan instr vol).2
  | Call.setSustain chan sustain => setSustain s chan sustain

/-- Effect of a sequence of calls, first call first. -/
def performAll (s : Device) (cs : List Call) : Device := cs.foldl perform s

/-! ## Basic facts about the state updates -/

theorem countChannels_le (s : Device) : countChannels s ≤ 11 := by
  unfold countChannels; split <;> decide

theorem countChannels_congr (s t : Device) (h : t.enablePercussion = s.enablePercussion) :
    countChannels t = countChannels s := by
  simp [countChannels, isPercussion, h]

theorem chanCtl_table :
    ∀ instr, instr ≤ 15 → ∀ vol, vol ≤ 15 → chanCtl instr vol = 16 * instr + (15 - vol) := by
  decide

theorem toU8_neg (n : Int) (h1 : -240 ≤ n) (h2 : n < 0) : 15 < toU8 n := by
  unfold toU8
  omega

@[simp] theorem modC_C (s : Device) (chan : Nat) (f : channelData_t → channelData_t) (i : Nat) :
    (modC s chan f).C i = if i = chan then f (s.C chan) else s.C i := rfl

@[simp] theorem modC_enablePercussion (s : Device) (chan : Nat)
    (f : channelData_t → channelData_t) :
    (modC s chan f).enablePercussion = s.enablePercussion := rfl

@[simp] theorem modC_writes (s : Device) (chan : Nat) (f : channelData_t → channelData_t) :
    (modC s chan f).writes = s.writes := rfl

@[simp] theorem send_C (s : Device) (a d : Nat) : (send s a d).C = s.C := rfl

@[simp] theorem send_enablePercussion (s : Device) (a d : Nat) :
    (send s a d).enablePercussion = s.enablePercussion := rfl

@[simp] theorem send_writes (s : Device) (a d : Nat) :
    (send s a d).writes = s.writes ++ [(a, d)] := rfl

theorem setVolume_C_eq (s : Device) (chan v : Nat) (h : chan < countChannels s) :
    (setVolume s chan v).C = (modC s chan (fun c => { c with vol := min v 15 })).C := by
  have hv : (if v > VOL_MAX then VOL_MAX else v) = min v 15 := by
    simp only [VOL_MAX]; split <;> omega
  unfold setVolume
  rw [if_neg (by omega), hv]
  simp only []
  split_ifs <;> rfl

theorem setVolume_C (s : Device) (chan v : Nat) (h : chan < countChannels s) (i : Nat) :
    (setVolume s chan v).C i =
      if i = chan then { s.C chan with vol := min v 15 } else s.C i := by
  rw [setVolume_C_eq s chan v h]
  rfl

theorem setVolume_enablePercussion (s : Device) (chan v : Nat) :
    (setVolume s chan v).enablePercussion = s.enablePercussion := by
  unfold setVolume
  simp only []
  split_ifs <;> rfl

theorem setVolume_invalid (s : Device) (chan v : Nat) (h : chan ≥ countChannels s) :
    setVolume s chan v = s := by
  unfold setVolume
  rw [if_pos h]

theorem getVolume_setVolume (s : Device) (chan v : Nat) (h : chan < countChannels s) :
    getVolume (setVolume s chan v) chan = min v 15 := by
  unfold getVolume
  rw [countChannels_congr s _ (setVolume_enablePercussion s chan v), if_pos h,
    setVolume_C s chan v h, if_pos rfl]

/-! ## Out-of-range channels -/

/-- Claim C1 (code defect).  `noteOn(chan, freq, vol, duration)` tests
`chan > countChannels()`, so `chan = countChannels()` is let through.  After
`begin()` there are 9 channels; `noteOn(9, 440, 15, 0)` writes registers `0x19`
and `0x29` and moves slot 9 from `IDLE` to `SUSTAIN`. -/
theorem noteOn_at_countChannels :
    countChannels started = 9 ∧
    (noteOn started 0 9 440 15 0).writes = started.writes ++ [(0x19, 0x22), (0x29, 0x19)] ∧
    (started.C 9).state = channelState_t.IDLE ∧
    ((noteOn started 0 9 440 15 0).C 9).state = channelState_t.SUSTAIN := by
  decide

/-- Claim C2 (code defect).  `noteOff` has no channel test of its own.  With 9
channels, `noteOff(9)` writes register `0x29`; when slot 9 still holds a note from
an earlier percussion mode, it is also moved from `SUSTAIN` to `IDLE`. -/
theorem noteOff_out_of_range :
    countChannels started = 9 ∧
    (noteOff started 9).writes = started.writes ++ [(0x29, 0x00)] ∧
    countChannels staleSnare = 9 ∧
    (staleSnare.C 9).state = channelState_t.SUSTAIN ∧
    ((noteOff staleSnare 9).C 9).state = channelState_t.IDLE ∧
    (noteOff staleSnare 9).writes = staleSnare.writes ++ [(0x29, 0x00)] := by
  decide

/-! ## Percussion registers -/

/-- Claim C3 (code defect).  `buildReg0e` takes the key bits of the other voices
from `_C[0] .. _C[4]`, the melodic channels, instead of the percussion channels
6..10.  With the hi-hat (channel 6) sounding, `noteOn` on the bass drum
(channel 10) writes `0x30` to register `0x0E`, not `0x31`; with only melodic
channel 0 sounding, the same call writes `0x31`. -/
theorem rhythm_byte_reads_melodic_channels :
    isPercussionChan hiHatOn 6 = true ∧ isPercussionChan hiHatOn 10 = true ∧
    (hiHatOn.C 6).instrument = P_HI_HAT ∧ (hiHatOn.C 10).instrument = P_BASS_DRUM ∧
    (hiHatOn.C 6).state = channelState_t.SUSTAIN ∧
    (noteOn hiHatOn 0 10 440 15 0).writes = hiHatOn.writes ++ [(0x36, 0x00), (0x0e, 0x30)] ∧
    (melodyOn.C 6).state = channelState_t.IDLE ∧
    (melodyOn.C 0).state = channelState_t.SUSTAIN ∧
    (noteOn melodyOn 0 10 440 15 0).writes = melodyOn.writes ++ [(0x36, 0x00), (0x0e, 0x31)] := by
  decide

/-- Claim C4 (code defect).  In the percussion branch `setVolume` reads the
volumes of `_C[CH_x - PERC_CHAN_BASE]`, the melodic channels 0..4, instead of the
percussion channels.  After `setPercussion(true)`, `setVolume(6, 10)` and
`setVolume(9, 3)` store 10 and 3 but both write `(0x37, 0x00)`, not
`(0x37, 0x5C)`. -/
theorem percussion_volume_reads_melodic_channels :
    isPercussionChan percussionOn 6 = true ∧ isPercussionChan percussionOn 9 = true ∧
    getVolume (setVolume (setVolume percussionOn 6 10) 9 3) 6 = 10 ∧
    getVolume (setVolume (setVolume percussionOn 6 10) 9 3) 9 = 3 ∧
    (setVolume (setVolume percussionOn 6 10) 9 3).writes =
      percussionOn.writes ++ [(0x37, 0x00), (0x37, 0x00)] := by
  decide

/-! ## setInstrument -/

/-- Claim C5 (code defect).  In percussion mode `setInstrument(6, I_PIANO, 10)`
returns `true` and replaces the hi-hat on channel 6 by `I_PIANO`. -/
theorem setInstrument_melodic_on_percussion_channel :
    isPercussionChan percussionOn 6 = true ∧
    getInstrument percussionOn 6 = P_HI_HAT ∧
    (setInstrument percussionOn 6 I_PIANO 10).1 = true ∧
    getInstrument (setInstrument percussionOn 6 I_PIANO 10).2 6 = I_PIANO := by
  decide

/-- Claim C6.  `setInstrument` returns `false` exactly when the channel is not
below `countChannels()` or percussion mode is off and the instrument is a
percussion identifier; when it returns `false` the whole state, the write log
included, is unchanged. -/
theorem setInstrument_fails (s : Device) (chan instr vol : Nat) :
    ((setInstrument s chan instr vol).1 = false ↔
      (chan ≥ countChannels s ∨ (isPercussion s = false ∧ instr ≥ P_HI_HAT))) ∧
    ((setInstrument s chan instr vol).1 = false → (setInstrument s chan instr vol).2 = s) := by
  unfold setInstrument
  split <;> simp_all

/-- Claim C7.  When `setInstrument` returns `true`, the record of `chan` is the old
one with instrument and volume replaced, no other channel changes, exactly one
write `(0x30 + chan, chanCtl instr vol)` is issued when percussion mode is off or
`chan < 6` (the byte being `16 * instr + (15 - vol)` for `instr ≤ 15`, `vol ≤ 15`),
and nothing is written for a percussion channel. -/
theorem setInstrument_success (s : Device) (chan instr vol : Nat)
    (h : (setInstrument s chan instr vol).1 = true) :
    (setInstrument s chan instr vol).2.C chan =
        { s.C chan with instrument := instr, vol := vol } ∧
    (∀ c, c ≠ chan → (setInstrument s chan instr vol).2.C c = s.C c) ∧
    ((isPercussion s = false ∨ chan < 6) →
      (setInstrument s chan instr vol).2.writes =
        s.writes ++ [(0x30 + chan, chanCtl instr vol)] ∧
      (instr ≤ 15 → vol ≤ 15 → chanCtl instr vol = 16 * instr + (15 - vol))) ∧
    ((isPercussion s = true ∧ 6 ≤ chan) →
      (setInstrument s chan instr vol).2.writes = s.writes) := by
  have hle := countChannels_le s
  unfold setInstrument at h ⊢
  split at h
  · simp at h
  · rename_i hg
    rw [if_neg hg]
    have hch : chan < 11 := by omega
    have hu : u8 (R_CHAN_CTL_BASE_REG + chan) = 0x30 + chan := by
      unfold u8; simp only [R_CHAN_CTL_BASE_REG]; omega
    simp only [isPercussion, modC_enablePercussion, PART_INSTR_CHANNELS]
    refine ⟨?_, ?_, ?_, ?_⟩
    · split_ifs <;> simp
    · intro c hc
      split_ifs <;> simp [hc]
    · intro hm
      refine ⟨?_, fun hi hv => chanCtl_table instr hi vol hv⟩
      rw [if_pos]
      · simp [hu]
      · rcases hm with hm | hm
        · exact Or.inl hm
        · cases hp : s.enablePercussion
          · exact Or.inl rfl
          · exact Or.inr ⟨rfl, hm⟩
    · rintro ⟨hp, hm⟩
      rw [if_neg]
      · rfl
      · simp [hp]; omega

/-- Witness for C7: `setInstrument(2, I_FLUTE, 10)` after `begin()` succeeds and
writes `(0x32, chanCtl I_FLUTE 10)`. -/
theorem setInstrument_success_witness :
    (setInstrument started 2 I_FLUTE 10).1 = true ∧
    ((setInstrument started 2 I_FLUTE 10).2.writes =
        started.writes ++ [(0x30 + 2, chanCtl I_FLUTE 10)] ∧
      (I_FLUTE ≤ 15 → 10 ≤ 15 → chanCtl I_FLUTE 10 = 16 * I_FLUTE + (15 - 10))) :=
  ⟨by decide,
   (setInstrument_success started 2 I_FLUTE 10 (by decide)).2.2.1 (Or.inl (by decide))⟩

/-! ## setVolume -/

/-- Claim C8.  For a valid channel `setVolume(chan, v)` makes `getVolume(chan)`
equal to `min v 15` and leaves every other channel record, hence every other
stored volume, as it was; for a channel that is not valid the whole state, the
write log included, is unchanged. -/
theorem setVolume_readback (s : Device) (chan v : Nat) :
    (chan < countChannels s →
      getVolume (setVolume s chan v) chan = min v 15 ∧
      ∀ c, c ≠ chan → (setVolume s chan v).C c = s.C c ∧
        getVolume (setVolume s chan v) c = getVolume s c) ∧
    (chan ≥ countChannels s → setVolume s chan v = s) := by
  refine ⟨fun h => ⟨getVolume_setVolume s chan v h, fun c hc => ⟨?_, ?_⟩⟩,
    setVolume_invalid s chan v⟩
  · rw [setVolume_C s chan v h, if_neg hc]
  · unfold getVolume
    rw [countChannels_congr s _ (setVolume_enablePercussion s chan v),
      setVolume_C s chan v h, if_neg hc]

/-- Witness for C8: in percussion mode, hi-hat volume 10 then snare volume 3; the
snare reads back 3 and the hi-hat still reads 10. -/
theorem setVolume_readback_witness :
    9 < countChannels (setVolume percussionOn 6 10) ∧
    getVolume (setVolume (setVolume percussionOn 6 10) 9 3) 9 = min 3 15 ∧
    getVolume (setVolume (setVolume percussionOn 6 10) 9 3) 6 =
      getVolume (setVolume percussionOn 6 10) 6 :=
  ⟨by decide,
   ((setVolume_readback (setVolume percussionOn 6 10) 9 3).1 (by decide)).1,
   (((setVolume_readback (setVolume percussionOn 6 10) 9 3).1 (by decide)).2 6
      (by decide)).2⟩

/-- Counterexample for C9: the value -1 reaches `setVolume` as 255 and is stored
as 15, not 0. -/
theorem setVolume_minus_one_not_zero :
    toU8 (-1) = 255 ∧ 0 < countChannels started ∧
    getVolume (setVolume started 0 (toU8 (-1))) 0 ≠ 0 := by
  decide

/-- Claim C9, amended.  A negative volume `n` in `-240 .. -1` reaches
`setVolume(chan, v)` as `256 + n > 15` and is clamped to `VOL_MAX = 15`. -/
theorem setVolume_underflow (s : Device) (chan : Nat) (n : Int)
    (hc : chan < countChannels s) (h1 : -240 ≤ n) (h2 : n < 0) :
    getVolume (setVolume s chan (toU8 n)) chan = VOL_MAX := by
  have hv := toU8_neg n h1 h2
  rw [getVolume_setVolume s chan _ hc]
  simp only [VOL_MAX]
  omega

/-- Witness for the amended C9 at `n = -1` on channel 0 after `begin()`. -/
theorem setVolume_underflow_witness :
    0 < countChannels started ∧ (-240 : Int) ≤ -1 ∧ (-1 : Int) < 0 ∧
    getVolume (setVolume started 0 (toU8 (-1))) 0 = VOL_MAX :=
  ⟨by decide, by decide, by decide,
   setVolume_underflow started 0 (-1) (by decide) (by decide) (by decide)⟩

/-- Claim C10 (code defect).  `setInstrument` stores its volume argument without
the bound that `setVolume` applies: after `begin()`, `setInstrument(0, I_PIANO, 200)`
succeeds and `getVolume(0)` is 200. -/
theorem setInstrument_volume_unbounded :
    0 < countChannels (setInstrument started 0 I_PIANO 200).2 ∧
    (setInstrument started 0 I_PIANO 200).1 = true ∧
    getVolume (setInstrument started 0 I_PIANO 200).2 0 = 200 := by
  decide

/-! ## The note-off transition and `run` -/

theorem noteOff_enablePercussion (s : Device) (chan : Nat) :
    (noteOff s chan).enablePercussion = s.enablePercussion := by
  unfold noteOff
  simp only []
  split_ifs <;> simp [setVolume_enablePercussion]

theorem countChannels_noteOff (s : Device) (chan : Nat) :
    countChannels (noteOff s chan) = countChannels s :=
  countChannels_congr s _ (noteOff_enablePercussion s chan)

theorem noteOff_C (s : Device) (chan : Nat) (h : chan < countChannels s) (i : Nat) :
    (noteOff s chan).C i = if i = chan then silenced (s.C chan) else s.C i := by
  unfold noteOff
  simp only []
  split_ifs <;> simp_all [setVolume_C s chan VOL_OFF h, silenced]

theorem noteOff_C_other (s : Device) (chan i : Nat) (hi : i ≠ chan) :
    (noteOff s chan).C i = s.C i := by
  by_cases h : chan < countChannels s
  · rw [noteOff_C s chan h, if_neg hi]
  · unfold noteOff
    rw [setVolume_invalid s chan _ (by omega)]
    simp only []
    split_ifs <;> simp [hi]

theorem noteDue_noteOff_other (s : Device) (now chan i : Nat) (hi : i ≠ chan) :
    noteDue (noteOff s chan) now i = noteDue s now i := by
  unfold noteDue
  rw [noteOff_C_other s chan i hi]

theorem runLoop_eq (now : Nat) : ∀ (fuel chan : Nat) (s : Device),
    countChannels s ≤ chan + fuel →
    runLoop now fuel chan s =
      ((List.range' chan (countChannels s - chan)).filter (noteDue s now)).foldl noteOff s := by
  intro fuel
  induction fuel with
  | zero =>
    intro chan s h
    have h0 : countChannels s - chan = 0 := by omega
    simp [runLoop, h0]
  | succ fuel ih =>
    intro chan s h
    unfold runLoop
    by_cases hc : chan < countChannels s
    · rw [if_pos hc]
      obtain ⟨n, hn⟩ : ∃ n, countChannels s - chan = n + 1 := ⟨countChannels s - chan - 1, by omega⟩
      have hn' : countChannels s - (chan + 1) = n := by omega
      rw [hn, List.range'_succ, List.filter_cons]
      by_cases hd : noteDue s now chan = true
      · have hstep : (if (s.C chan).state = channelState_t.SUSTAIN ∧ (s.C chan).duration ≠ 0 then
            if (now + 2 ^ 32 - (s.C chan).timeBase) % 2 ^ 32 ≥ (s.C chan).duration then
              noteOff s chan else s else s) = noteOff s chan := by
          simp only [noteDue, decide_eq_true_eq] at hd
          rw [if_pos ⟨hd.1, hd.2.1⟩, if_pos hd.2.2]
        simp only [hstep]
        rw [if_pos hd, List.foldl_cons, ih (chan + 1) (noteOff s chan)
          (by rw [countChannels_noteOff]; omega), countChannels_noteOff, hn']
        congr 1
        apply List.filter_congr
        intro i hi
        rw [List.mem_range'_1] at hi
        exact noteDue_noteOff_other s now chan i (by omega)
      · have hstep : (if (s.C chan).state = channelState_t.SUSTAIN ∧ (s.C chan).duration ≠ 0 then
            if (now + 2 ^ 32 - (s.C chan).timeBase) % 2 ^ 32 ≥ (s.C chan).duration then
              noteOff s chan else s else s) = s := by
          simp only [noteDue, decide_eq_true_eq] at hd
          split_ifs with h1 h2
          · exact absurd ⟨h1.1, h1.2, h2⟩ hd
          · rfl
          · rfl
        simp only [hstep]
        rw [if_neg hd, ih (chan + 1) s (by omega), hn']
    · rw [if_neg hc]
      have h0 : countChannels s - chan = 0 := by omega
      simp [h0]

theorem run_eq (s : Device) (now : Nat) :
    run s now = ((List.range (countChannels s)).filter (noteDue s now)).foldl noteOff s := by
  unfold run
  rw [runLoop_eq now 256 0 s (by have := countChannels_le s; omega), List.range_eq_range']
  simp

theorem foldl_noteOff_enablePercussion : ∀ (l : List Nat) (s : Device),
    (l.foldl noteOff s).enablePercussion = s.enablePercussion := by
  intro l
  induction l with
  | nil => intro s; rfl
  | cons a l ih => intro s; rw [List.foldl_cons, ih, noteOff_enablePercussion]

theorem silenced_silenced (c : channelData_t) : silenced (silenced c) = silenced c := rfl

theorem foldl_noteOff_C : ∀ (l : List Nat) (s : Device),
    (∀ c, c ∈ l → c < countChannels s) → ∀ i,
    (l.foldl noteOff s).C i = if i ∈ l then silenced (s.C i) else s.C i := by
  intro l
  induction l with
  | nil => intro s _ i; simp
  | cons a l ih =>
    intro s hl i
    have ha : a < countChannels s := hl a (List.mem_cons_self a l)
    rw [List.foldl_cons, ih (noteOff s a) (fun c hc => by
      rw [countChannels_noteOff]; exact hl c (List.mem_cons_of_mem a hc)) i]
    rw [noteOff_C s a ha i]
    by_cases hia : i = a
    · subst hia
      simp [silenced_silenced]
    · by_cases hil : i ∈ l <;> simp [hia, hil]

theorem run_C (s : Device) (now i : Nat) :
    (run s now).C i =
      if i < countChannels s ∧ noteDue s now i = true then silenced (s.C i) else s.C i := by
  rw [run_eq, foldl_noteOff_C _ s (fun c hc => by
    rw [List.mem_filter, List.mem_range] at hc; exact hc.1) i]
  simp only [List.mem_filter, List.mem_range]

theorem run_enablePercussion (s : Device) (now : Nat) :
    (run s now).enablePercussion = s.enablePercussion := by
  rw [run_eq, foldl_noteOff_enablePercussion]

theorem countChannels_run (s : Device) (now : Nat) :
    countChannels (run s now) = countChannels s :=
  countChannels_congr s _ (run_enablePercussion s now)

theorem noteOn_enablePercussion (s : Device) (now chan freq vol duration : Nat) :
    (noteOn s now chan freq vol duration).enablePercussion = s.enablePercussion := by
  unfold noteOn
  simp only []
  split_ifs <;> simp [setVolume_enablePercussion]

theorem noteOn_timing (s : Device) (now chan freq vol duration : Nat)
    (h : chan < countChannels s) :
    ((noteOn s now chan freq vol duration).C chan).state = channelState_t.SUSTAIN ∧
    ((noteOn s now chan freq vol duration).C chan).duration = duration ∧
    ((noteOn s now chan freq vol duration).C chan).timeBase = now := by
  unfold noteOn
  rw [if_neg (by omega)]
  simp

theorem noteOnNote_enablePercussion (s : Device) (now chan octave note vol duration : Nat) :
    (noteOnNote s now chan octave note vol duration).enablePercussion = s.enablePercussion := by
  unfold noteOnNote
  simp only []
  split_ifs <;> simp [setVolume_enablePercussion]

theorem noteOnNote_timing (s : Device) (now chan octave note vol duration : Nat)
    (h : chan < countChannels s) (hn : note < 12) :
    ((noteOnNote s now chan octave note vol duration).C chan).state = channelState_t.SUSTAIN ∧
    ((noteOnNote s now chan octave note vol duration).C chan).duration = duration ∧
    ((noteOnNote s now chan octave note vol duration).C chan).timeBase = now := by
  unfold noteOnNote
  rw [if_neg (by simp [fNumTable]; omega)]
  simp

theorem isIdle_eq (s : Device) (chan : Nat) (h : chan < countChannels s) :
    isIdle s chan = decide ((s.C chan).state = channelState_t.IDLE) := by
  unfold isIdle
  rw [if_pos h]

/-- Claim C11.  `run` at time `now` is the sequence of `noteOff` calls on the
channels below `countChannels()` that are due (in `SUSTAIN`, duration not 0,
elapsed time at least the duration), in ascending order.  Hence a due channel
gets the note-off transition, every other channel record is unchanged, and
when no channel is due the whole state, the write log included, is unchanged.
A note of duration 100 started at `T` is still sounding after `run` at `T + 50`
and idle after `run` at `T + 150`. -/
theorem run_noteOff_exactly_due (s : Device) (now : Nat) :
    run s now = ((List.range (countChannels s)).filter (noteDue s now)).foldl noteOff s ∧
    (∀ c, (run s now).C c =
      if c < countChannels s ∧ noteDue s now c = true then silenced (s.C c) else s.C c) ∧
    ((∀ c, c < countChannels s → noteDue s now c = false) → run s now = s) ∧
    (∀ chan freq vol, chan < countChannels s → now + 150 < 2 ^ 32 →
      isIdle (run (noteOn s now chan freq vol 100) (now + 50)) chan = false ∧
      isIdle (run (run (noteOn s now chan freq vol 100) (now + 50)) (now + 150)) chan = true) := by
  refine ⟨run_eq s now, run_C s now, ?_, ?_⟩
  · intro h
    rw [run_eq]
    have hf : (List.range (countChannels s)).filter (noteDue s now) = [] := by
      rw [List.filter_eq_nil_iff]
      intro c hc
      rw [List.mem_range] at hc
      simp [h c hc]
    rw [hf]
    rfl
  · intro chan freq vol hc hT
    obtain ⟨h1, h2, h3⟩ := noteOn_timing s now chan freq vol 100 hc
    have hc1 : chan < countChannels (noteOn s now chan freq vol 100) := by
      rw [countChannels_congr s _ (noteOn_enablePercussion s now chan freq vol 100)]
      exact hc
    have hnd : noteDue (noteOn s now chan freq vol 100) (now + 50) chan = false := by
      simp only [noteDue, h1, h2, h3, decide_eq_false_iff_not]
      omega
    have hC1 : (run (noteOn s now chan freq vol 100) (now + 50)).C chan =
        (noteOn s now chan freq vol 100).C chan := by
      rw [run_C, if_neg (by simp [hnd])]
    have hc2 : chan < countChannels (run (noteOn s now chan freq vol 100) (now + 50)) := by
      rw [countChannels_run]; exact hc1
    have hd : noteDue (run (noteOn s now chan freq vol 100) (now + 50)) (now + 150) chan
        = true := by
      simp only [noteDue, hC1, h1, h2, h3, decide_eq_true_eq]
      refine ⟨trivial, by omega, ?_⟩
      omega
    constructor
    · rw [isIdle_eq _ _ hc2, hC1, h1]
      rfl
    · rw [isIdle_eq _ _ (by rw [countChannels_run]; exact hc2), run_C, if_pos ⟨hc2, hd⟩]
      rfl

/-- Witness for C11: after `begin()`, a note of duration 100 on channel 2 started at
time 1000, polled at 1050 and at 1150. -/
theorem run_noteOff_exactly_due_witness :
    2 < countChannels started ∧ 1000 + 150 < 2 ^ 32 ∧
    isIdle (run (noteOn started 1000 2 440 15 100) (1000 + 50)) 2 = false ∧
    isIdle (run (run (noteOn started 1000 2 440 15 100) (1000 + 50)) (1000 + 150)) 2 = true :=
  ⟨by decide, by decide,
   (run_noteOff_exactly_due started 1000).2.2.2 2 440 15 (by decide) (by decide)⟩

/-! ## Volume and instrument changes do not touch the timing of a note -/

theorem noteDue_congr (s t : Device) (now c : Nat) (h : timing (t.C c) = timing (s.C c)) :
    noteDue t now c = noteDue s now c := by
  simp only [timing, Prod.mk.injEq] at h
  simp only [noteDue, h.1, h.2.1, h.2.2]

theorem setVolume_timing (s : Device) (chan v c : Nat) :
    timing ((setVolume s chan v).C c) = timing (s.C c) := by
  by_cases h : chan < countChannels s
  · rw [setVolume_C s chan v h]
    split_ifs with hc
    · subst hc; rfl
    · rfl
  · rw [setVolume_invalid s chan v (by omega)]

theorem setInstrument_enablePercussion (s : Device) (chan instr vol : Nat) :
    (setInstrument s chan instr vol).2.enablePercussion = s.enablePercussion := by
  unfold setInstrument
  simp only []
  split_ifs <;> rfl

theorem setInstrument_timing (s : Device) (chan instr vol c : Nat) :
    timing ((setInstrument s chan instr vol).2.C c) = timing (s.C c) := by
  unfold setInstrument
  simp only []
  split_ifs <;> simp only [send_C, modC_C] <;> split_ifs with hc <;>
    first | rfl | (subst hc; rfl)

theorem setSustain_enablePercussion (s : Device) (chan : Nat) (b : Bool) :
    (setSustain s chan b).enablePercussion = s.enablePercussion := by
  unfold setSustain
  split_ifs <;> rfl

theorem setSustain_timing (s : Device) (chan : Nat) (b : Bool) (c : Nat) :
    timing ((setSustain s chan b).C c) = timing (s.C c) := by
  unfold setSustain
  split_ifs
  · simp only [modC_C]
    split_ifs with hc
    · subst hc; rfl
    · rfl
  · rfl

theorem setVolumeAllLoop_keeps (v : Nat) : ∀ (fuel i : Nat) (s : Device),
    (setVolumeAllLoop v fuel i s).enablePercussion = s.enablePercussion ∧
    ∀ c, timing ((setVolumeAllLoop v fuel i s).C c) = timing (s.C c) := by
  intro fuel
  induction fuel with
  | zero => intro i s; exact ⟨rfl, fun _ => rfl⟩
  | succ fuel ih =>
    intro i s
    unfold setVolumeAllLoop
    split_ifs
    · obtain ⟨h1, h2⟩ := ih (i + 1) (setVolume s i v)
      exact ⟨h1.trans (setVolume_enablePercussion s i v),
        fun c => (h2 c).trans (setVolume_timing s i v c)⟩
    · exact ⟨rfl, fun _ => rfl⟩

theorem run_timing (s : Device) (now c : Nat) :
    ((run s now).C c).duration = (s.C c).duration ∧
    ((run s now).C c).timeBase = (s.C c).timeBase ∧
    ((run s now).C c).state =
      if c < countChannels s ∧ noteDue s now c = true then channelState_t.IDLE
      else (s.C c).state := by
  rw [run_C]
  split_ifs <;> exact ⟨rfl, rfl, rfl⟩

theorem isIdle_run_congr (s t : Device) (hp : t.enablePercussion = s.enablePercussion)
    (ht : ∀ c, timing (t.C c) = timing (s.C c)) (now c : Nat) :
    isIdle (run t now) c = isIdle (run s now) c := by
  have hcount : countChannels t = countChannels s := countChannels_congr s t hp
  have hst : (t.C c).state = (s.C c).state := by
    have := ht c
    simp only [timing, Prod.mk.injEq] at this
    exact this.1
  unfold isIdle
  rw [countChannels_run, countChannels_run, hcount, (run_timing t now c).2.2,
    (run_timing s now c).2.2, hcount, noteDue_congr s t now c (ht c), hst]

/-- Claim C19.  `setVolume(chan, v)`, `setVolume(v)` and `setInstrument` leave the
playback state, the duration and the start time of every channel as they were;
so whether a channel is due at a given time, and whether it is idle after `run`
at that time, is the same with and without the change. -/
theorem volume_instrument_keep_timing (s : Device) (chan v instr vol : Nat) :
    (∀ c, timing ((setVolume s chan v).C c) = timing (s.C c)) ∧
    (∀ c, timing ((setVolumeAll s v).C c) = timing (s.C c)) ∧
    (∀ c, timing ((setInstrument s chan instr vol).2.C c) = timing (s.C c)) ∧
    (∀ now c, noteDue (setVolume s chan v) now c = noteDue s now c ∧
      noteDue (setVolumeAll s v) now c = noteDue s now c ∧
      noteDue (setInstrument s chan instr vol).2 now c = noteDue s now c) ∧
    (∀ now c, isIdle (run (setVolume s chan v) now) c = isIdle (run s now) c ∧
      isIdle (run (setVolumeAll s v) now) c = isIdle (run s now) c ∧
      isIdle (run (setInstrument s chan instr vol).2 now) c = isIdle (run s now) c) := by
  have hA := setVolumeAllLoop_keeps v 128 0 s
  refine ⟨setVolume_timing s chan v, hA.2, setInstrument_timing s chan instr vol, ?_, ?_⟩
  · intro now c
    exact ⟨noteDue_congr _ _ now c (setVolume_timing s chan v c),
      noteDue_congr _ _ now c (hA.2 c),
      noteDue_congr _ _ now c (setInstrument_timing s chan instr vol c)⟩
  · intro now c
    exact ⟨isIdle_run_congr s _ (setVolume_enablePercussion s chan v)
        (setVolume_timing s chan v) now c,
      isIdle_run_congr s _ hA.1 hA.2 now c,
      isIdle_run_congr s _ (setInstrument_enablePercussion s chan instr vol)
        (setInstrument_timing s chan instr vol) now c⟩

/-! ## Notes without a duration -/

theorem perform_keeps (t : Device) (chan : Nat) (c : Call)
    (h1 : (t.C chan).state = channelState_t.SUSTAIN) (h2 : (t.C chan).duration = 0) :
    (perform t c).enablePercussion = t.enablePercussion ∧
    ((perform t c).C chan).state = channelState_t.SUSTAIN ∧
    ((perform t c).C chan).duration = 0 := by
  have key : ∀ u : Device, timing (u.C chan) = timing (t.C chan) →
      (u.C chan).state = channelState_t.SUSTAIN ∧ (u.C chan).duration = 0 := by
    intro u hu
    simp only [timing, Prod.mk.injEq] at hu
    exact ⟨hu.1.trans h1, hu.2.1.trans h2⟩
  cases c with
  | run now =>
    have hnd : noteDue t now chan = false := by
      simp [noteDue, h2]
    obtain ⟨hd, _, hs⟩ := run_timing t now chan
    refine ⟨run_enablePercussion t now, ?_, hd.trans h2⟩
    show ((run t now).C chan).state = channelState_t.SUSTAIN
    rw [hs, if_neg (by simp [hnd])]
    exact h1
  | setVolume ch v =>
    exact ⟨setVolume_enablePercussion t ch v, key _ (setVolume_timing t ch v chan)⟩
  | setVolumeAll v =>
    have hA := setVolumeAllLoop_keeps v 128 0 t
    exact ⟨hA.1, key _ (hA.2 chan)⟩
  | setInstrument ch instr vol =>
    exact ⟨setInstrument_enablePercussion t ch instr vol,
      key _ (setInstrument_timing t ch instr vol chan)⟩
  | setSustain ch b =>
    exact ⟨setSustain_enablePercussion t ch b, key _ (setSustain_timing t ch b chan)⟩

theorem performAll_keeps (chan : Nat) : ∀ (cs : List Call) (t : Device),
    (t.C chan).state = channelState_t.SUSTAIN → (t.C chan).duration = 0 →
    (performAll t cs).enablePercussion = t.enablePercussion ∧
    ((performAll t cs).C chan).state = channelState_t.SUSTAIN := by
  intro cs
  induction cs with
  | nil => intro t h1 _; exact ⟨rfl, h1⟩
  | cons c cs ih =>
    intro t h1 h2
    obtain ⟨hp, hs, hd⟩ := perform_keeps t chan c h1 h2
    obtain ⟨hp', hs'⟩ := ih (perform t c) hs hd
    exact ⟨hp'.trans hp, hs'⟩

/-- Claim C12.  A note started on a valid channel with duration 0, by either
overload of `noteOn` (the pitch overload with a note number below 12), is still in
`SUSTAIN`, and `isIdle` is `false`, after any sequence of `run` (at any times),
`setVolume`, `setInstrument` and `setSustain` calls. -/
theorem zero_duration_never_expires (s : Device) (now chan freq octave note vol : Nat)
    (cs : List Call) (h : chan < countChannels s) :
    (((performAll (noteOn s now chan freq vol 0) cs).C chan).state = channelState_t.SUSTAIN ∧
      isIdle (performAll (noteOn s now chan freq vol 0) cs) chan = false) ∧
    (note < 12 →
      ((performAll (noteOnNote s now chan octave note vol 0) cs).C chan).state
        = channelState_t.SUSTAIN ∧
      isIdle (performAll (noteOnNote s now chan octave note vol 0) cs) chan = false) := by
  have fin : ∀ t : Device, t.enablePercussion = s.enablePercussion →
      (t.C chan).state = channelState_t.SUSTAIN → (t.C chan).duration = 0 →
      ((performAll t cs).C chan).state = channelState_t.SUSTAIN ∧
      isIdle (performAll t cs) chan = false := by
    intro t hp h1 h2
    obtain ⟨hp', hs⟩ := performAll_keeps chan cs t h1 h2
    refine ⟨hs, ?_⟩
    rw [isIdle_eq _ _ (by rw [countChannels_congr s _ (hp'.trans hp)]; exact h), hs]
    rfl
  constructor
  · obtain ⟨h1, h2, _⟩ := noteOn_timing s now chan freq vol 0 h
    exact fin _ (noteOn_enablePercussion s now chan freq vol 0) h1 h2
  · intro hn
    obtain ⟨h1, h2, _⟩ := noteOnNote_timing s now chan octave note vol 0 h hn
    exact fin _ (noteOnNote_enablePercussion s now chan octave note vol 0) h1 h2

/-- Witness for C12: after `begin()`, a note without duration on channel 1, then a
volume change, an instrument change and two polls long after the start. -/
theorem zero_duration_never_expires_witness :
    1 < countChannels started ∧
    isIdle (performAll (noteOn started 0 1 440 15 0)
      [Call.setVolume 1 3, Call.run 100000, Call.setInstrument 1 I_FLUTE 9,
       Call.run 4000000000]) 1 = false :=
  ⟨by decide,
   (zero_duration_never_expires started 0 1 440 0 0 15
      [Call.setVolume 1 3, Call.run 100000, Call.setInstrument 1 I_FLUTE 9,
       Call.run 4000000000] (by decide)).1.2⟩

/-! ## Idempotence of `noteOff` -/

@[simp] theorem send_lastAddress (s : Device) (a d : Nat) : (send s a d).lastAddress = a := by
  unfold send
  simp only []
  split_ifs with h
  · rfl
  · exact not_not.mp h

@[simp] theorem send_addrUninit (s : Device) (a d : Nat) :
    (send s a d).addrUninit = s.addrUninit := rfl

@[simp] theorem modC_addrUninit (s : Device) (chan : Nat) (f : channelData_t → channelData_t) :
    (modC s chan f).addrUninit = s.addrUninit := rfl

@[simp] theorem modC_lastAddress (s : Device) (chan : Nat) (f : channelData_t → channelData_t) :
    (modC s chan f).lastAddress = s.lastAddress := rfl

theorem Device.ext_fields (s t : Device) (h1 : s.C = t.C)
    (h2 : s.enablePercussion = t.enablePercussion) (h3 : s.lastAddress = t.lastAddress)
    (h4 : s.writes = t.writes) (h5 : s.addrUninit = t.addrUninit) : s = t := by
  cases s
  cases t
  simp only [Device.mk.injEq]
  exact ⟨h1, h2, h3, h4, h5⟩

theorem setVolume_eq (s : Device) (chan v : Nat) (h : chan < countChannels s) :
    setVolume s chan v =
      send (modC s chan (fun c => { c with vol := min v 15 }))
        (volumeWrite (modC s chan (fun c => { c with vol := min v 15 })) chan).1
        (volumeWrite (modC s chan (fun c => { c with vol := min v 15 })) chan).2 := by
  have hv : (if v > VOL_MAX then VOL_MAX else v) = min v 15 := by
    simp only [VOL_MAX]; split <;> omega
  unfold setVolume volumeWrite
  rw [if_neg (by omega), hv]
  simp only []
  split_ifs <;> rfl

theorem noteOff_eq (s : Device) (chan : Nat) :
    noteOff s chan =
      modC (send (setVolume s chan VOL_OFF)
          (keyWrite (setVolume s chan VOL_OFF) chan false).1
          (keyWrite (setVolume s chan VOL_OFF) chan false).2) chan
        (fun c => { c with state := channelState_t.IDLE }) := by
  unfold noteOff keyWrite
  simp only []
  split_ifs <;> rfl

theorem buildReg0e_congr (s t : Device) (enable keyOn : Bool) (instr : Nat)
    (h : ∀ i, i < 5 → (t.C i).state = (s.C i).state) :
    buildReg0e t enable instr keyOn = buildReg0e s enable instr keyOn := by
  unfold buildReg0e
  simp only [PERC_CHANNELS, List.range, List.range.loop, List.foldl]
  rw [h 0 (by omega), h 1 (by omega), h 2 (by omega), h 3 (by omega), h 4 (by omega)]

theorem volumeWrite_congr (s t : Device) (chan : Nat)
    (hp : t.enablePercussion = s.enablePercussion) (hu : t.addrUninit = s.addrUninit)
    (hi : (t.C chan).instrument = (s.C chan).instrument)
    (hv : ∀ i, (t.C i).vol = (s.C i).vol) :
    volumeWrite t chan = volumeWrite s chan := by
  unfold volumeWrite
  simp only [isPercussion, hp, hu, hi, hv]

theorem keyWrite_congr (s t : Device) (chan : Nat) (keyOn : Bool)
    (hp : t.enablePercussion = s.enablePercussion)
    (hi : (t.C chan).instrument = (s.C chan).instrument)
    (hs : (t.C chan).sustain = (s.C chan).sustain)
    (ho : (t.C chan).octave = (s.C chan).octave)
    (hf : (t.C chan).fNum = (s.C chan).fNum)
    (hst : ∀ i, i ≠ chan → (t.C i).state = (s.C i).state) :
    keyWrite t chan keyOn = keyWrite s chan keyOn := by
  have hcount : countChannels t = countChannels s := countChannels_congr s t hp
  have hpc : isPercussionChan t chan = isPercussionChan s chan := by
    simp only [isPercussionChan, isPercussion, hp, hcount]
  unfold keyWrite
  rw [hpc, hi, hs, ho, hf]
  split_ifs with h
  · rfl
  · have h6 : 6 ≤ chan := by
      simp only [isPercussionChan, PERC_CHAN_BASE, Bool.and_eq_false_iff, not_or,
        decide_eq_false_iff_not] at h
      omega
    rw [buildReg0e_congr s t true keyOn _ (fun i hi5 => hst i (by omega))]

/-- Idempotence of `noteOff` where the code determines both writes: on a valid
channel that is not a percussion channel, or is a percussion channel holding one
of the five percussion instruments, `noteOff` issues two writes `W` (the silence
write of `setVolume(chan, 0)` and the key-off write), and a second `noteOff` on
the same channel ends in the state of the first with the same two writes `W`
appended to the log once more.  The hypothesis leaves out the case in which
`setVolume` sends to its unassigned local `addr`. -/
theorem noteOff_twice_determined (s : Device) (chan : Nat) (h : chan < countChannels s)
    (_hdet : isPercussionChan s chan = false ∨
      (P_HI_HAT ≤ (s.C chan).instrument ∧ (s.C chan).instrument ≤ P_BASS_DRUM)) :
    ∃ W : List (Nat × Nat), W.length = 2 ∧
      (noteOff s chan).writes = s.writes ++ W ∧
      noteOff (noteOff s chan) chan =
        { noteOff s chan with writes := (noteOff s chan).writes ++ W } := by
  have h2 : chan < countChannels (noteOff s chan) := by
    rw [countChannels_noteOff]; exact h
  have hv0 : (setVolume s chan VOL_OFF).C chan = { s.C chan with vol := 0 } := by
    rw [setVolume_C s chan VOL_OFF h, if_pos rfl]; rfl
  have hvo : ∀ i, i ≠ chan → (setVolume s chan VOL_OFF).C i = s.C i := by
    intro i hi
    rw [setVolume_C s chan VOL_OFF h, if_neg hi]
  have e1 : volumeWrite (modC (noteOff s chan) chan (fun c => { c with vol := min VOL_OFF 15 })) chan
      = volumeWrite (modC s chan (fun c => { c with vol := min VOL_OFF 15 })) chan := by
    apply volumeWrite_congr
    · simp [noteOff_enablePercussion]
    · rw [noteOff_eq]; simp [setVolume_eq s chan VOL_OFF h]
    · simp [noteOff_C s chan h, silenced]
    · intro i
      by_cases hi : i = chan
      · subst hi; simp
      · simp [hi, noteOff_C_other s chan i hi]
  have e2 : keyWrite (setVolume (noteOff s chan) chan VOL_OFF) chan false
      = keyWrite (setVolume s chan VOL_OFF) chan false := by
    apply keyWrite_congr
    · rw [setVolume_enablePercussion, setVolume_enablePercussion, noteOff_enablePercussion]
    · rw [setVolume_C _ chan VOL_OFF h2, if_pos rfl, hv0, noteOff_C s chan h, if_pos rfl]; rfl
    · rw [setVolume_C _ chan VOL_OFF h2, if_pos rfl, hv0, noteOff_C s chan h, if_pos rfl]; rfl
    · rw [setVolume_C _ chan VOL_OFF h2, if_pos rfl, hv0, noteOff_C s chan h, if_pos rfl]; rfl
    · rw [setVolume_C _ chan VOL_OFF h2, if_pos rfl, hv0, noteOff_C s chan h, if_pos rfl]; rfl
    · intro i hi
      rw [setVolume_C _ chan VOL_OFF h2, if_neg hi, hvo i hi, noteOff_C_other s chan i hi]
  refine ⟨[volumeWrite (modC s chan (fun c => { c with vol := min VOL_OFF 15 })) chan,
    keyWrite (setVolume s chan VOL_OFF) chan false], rfl, ?_, ?_⟩
  · rw [noteOff_eq, setVolume_eq s chan VOL_OFF h]
    simp
  · apply Device.ext_fields
    · funext i
      show (noteOff (noteOff s chan) chan).C i = (noteOff s chan).C i
      by_cases hi : i = chan
      · subst hi
        rw [noteOff_C _ i h2, if_pos rfl, noteOff_C s i h, if_pos rfl]
        rfl
      · rw [noteOff_C_other _ chan i hi]
    · show (noteOff (noteOff s chan) chan).enablePercussion = (noteOff s chan).enablePercussion
      rw [noteOff_enablePercussion]
    · show (noteOff (noteOff s chan) chan).lastAddress = (noteOff s chan).lastAddress
      rw [noteOff_eq (noteOff s chan), e2, noteOff_eq s]
      simp
    · show (noteOff (noteOff s chan) chan).writes = (noteOff s chan).writes ++ _
      rw [noteOff_eq (noteOff s chan), e2, setVolume_eq _ chan VOL_OFF h2, e1]
      simp
    · show (noteOff (noteOff s chan) chan).addrUninit = (noteOff s chan).addrUninit
      rw [noteOff_eq (noteOff s chan), setVolume_eq _ chan VOL_OFF h2]
      simp

theorem pianoOnHiHat_silence (a : Nat) :
    setVolume (withAddr pianoOnHiHat a) 6 VOL_OFF =
      send (modC (withAddr pianoOnHiHat a) 6 (fun c => { c with vol := 0 })) a 0 := by
  have hc : 6 < countChannels (withAddr pianoOnHiHat a) := by
    show 6 < countChannels pianoOnHiHat
    decide
  rw [setVolume_eq _ 6 VOL_OFF hc]
  rfl

theorem percussion_noteOff_six (u : Device) (hp : u.enablePercussion = true) :
    (noteOff u 6).writes =
      (setVolume u 6 VOL_OFF).writes ++
        [(0x0e, buildReg0e (setVolume u 6 VOL_OFF) true
          ((setVolume u 6 VOL_OFF).C 6).instrument false)] := by
  have e1 : (setVolume u 6 VOL_OFF).enablePercussion = true :=
    (setVolume_enablePercussion u 6 VOL_OFF).trans hp
  have hpc : isPercussionChan (setVolume u 6 VOL_OFF) 6 = true := by
    simp only [isPercussionChan, isPercussion, countChannels, e1]
    decide
  rw [noteOff_eq]
  unfold keyWrite
  rw [if_neg (by simp [hpc])]
  rfl

/-- Claim C13 (code defect).  After `setPercussion(true)` and
`setInstrument(6, I_PIANO, 10)` channel 6 is a percussion channel holding a melodic
instrument, and the `switch` of `setVolume` assigns no address.  The silence write
of `noteOff(6)` then goes to whatever the unassigned local `addr` holds: for
every value `a` of it the write is `(a, 0)`.  With 8 at the first call and 255 at
the second, two `noteOff(6)` calls write `(8, 0)` and then `(255, 0)`, so the second
call does not repeat the writes of the first. -/
theorem noteOff_unassigned_address :
    6 < countChannels pianoOnHiHat ∧ isPercussionChan pianoOnHiHat 6 = true ∧
    getInstrument pianoOnHiHat 6 = I_PIANO ∧
    (∀ a, ∃ d, (noteOff (withAddr pianoOnHiHat a) 6).writes =
      pianoOnHiHat.writes ++ [(a, 0), (0x0e, d)]) ∧
    (∃ d1 d2,
      (noteOff (withAddr (noteOff (withAddr pianoOnHiHat 8) 6) 255) 6).writes
        = pianoOnHiHat.writes ++ [(8, 0), (0x0e, d1), (255, 0), (0x0e, d2)]) := by
  refine ⟨by decide, by decide, by decide, ?_, ?_⟩
  · intro a
    refine ⟨buildReg0e (setVolume (withAddr pianoOnHiHat a) 6 VOL_OFF) true
      ((setVolume (withAddr pianoOnHiHat a) 6 VOL_OFF).C 6).instrument false, ?_⟩
    rw [percussion_noteOff_six (withAddr pianoOnHiHat a)
      (show pianoOnHiHat.enablePercussion = true by decide), pianoOnHiHat_silence a]
    simp only [send_writes, modC_writes, List.append_assoc, List.singleton_append]
    rfl
  · exact ⟨0x20, 0x20, by decide⟩

/-! ## Mode switch -/

theorem setInstrument_ok (s : Device) (chan instr vol : Nat)
    (h : ¬ (chan ≥ countChannels s ∨ (isPercussion s = false ∧ instr ≥ P_HI_HAT))) :
    (setInstrument s chan instr vol).2 =
      if s.enablePercussion = false ∨ (s.enablePercussion = true ∧ chan < 6) then
        send (modC s chan (fun c => { c with instrument := instr, vol := vol }))
          (u8 (R_CHAN_CTL_BASE_REG + chan)) (chanCtl instr vol)
      else modC s chan (fun c => { c with instrument := instr, vol := vol }) := by
  unfold setInstrument
  rw [if_neg h]
  simp only [isPercussion, modC_enablePercussion, PART_INSTR_CHANNELS]
  split_ifs
  · apply Device.ext_fields
    · funext i; simp only [send_C, modC_C]; split_ifs <;> rfl
    · rfl
    · simp
    · simp
    · rfl
  · apply Device.ext_fields
    · funext i; simp only [modC_C]; split_ifs <;> rfl
    · rfl
    · rfl
    · rfl
    · rfl

theorem initChannelsLoop_spec : ∀ (fuel i : Nat) (s : Device),
    s.enablePercussion = false → 9 ≤ i + fuel →
    (initChannelsLoop fuel i s).enablePercussion = false ∧
    (∀ c, (initChannelsLoop fuel i s).C c =
      if i ≤ c ∧ c < 9 then
        { s.C c with instrument := I_PIANO, vol := VOL_MAX, state := channelState_t.IDLE }
      else s.C c) ∧
    (initChannelsLoop fuel i s).writes =
      s.writes ++ (List.range' i (9 - i)).map (fun c => (0x30 + c, 0x30)) := by
  intro fuel
  induction fuel with
  | zero =>
    intro i s hp hi
    have h0 : 9 - i = 0 := by omega
    refine ⟨hp, fun c => ?_, ?_⟩
    · rw [if_neg (by omega)]; rfl
    · simp [initChannelsLoop, h0]
  | succ fuel ih =>
    intro i s hp hi
    have hcount : countChannels s = 9 := by simp [countChannels, isPercussion, hp]
    unfold initChannelsLoop
    by_cases hlt : i < 9
    · rw [if_pos (by omega)]
      have hok := setInstrument_ok s i DEFAULT_INSTRUMENT VOL_MAX (by
        simp only [isPercussion, hcount, P_HI_HAT, DEFAULT_INSTRUMENT, I_PIANO]; omega)
      rw [if_pos (Or.inl hp)] at hok
      simp only []
      rw [hok]
      obtain ⟨k1, k2, k3⟩ := ih (i + 1)
        (modC (send (modC s i (fun c => { c with instrument := DEFAULT_INSTRUMENT, vol := VOL_MAX }))
          (u8 (R_CHAN_CTL_BASE_REG + i)) (chanCtl DEFAULT_INSTRUMENT VOL_MAX)) i
          (fun c => { c with state := channelState_t.IDLE })) hp (by omega)
      refine ⟨k1, fun c => ?_, ?_⟩
      · rw [k2 c]
        by_cases hc : c = i
        · subst hc
          have hn : ¬ (c + 1 ≤ c ∧ c < 9) := by omega
          simp [hn, hlt]
        · have hiff : (i + 1 ≤ c ∧ c < 9) ↔ (i ≤ c ∧ c < 9) := by omega
          simp [hc, hiff]
      · rw [k3]
        obtain ⟨n, hn⟩ : ∃ n, 9 - i = n + 1 := ⟨9 - i - 1, by omega⟩
        have hn' : 9 - (i + 1) = n := by omega
        have hu : u8 (R_CHAN_CTL_BASE_REG + i) = 0x30 + i := by
          unfold u8; simp only [R_CHAN_CTL_BASE_REG]; omega
        have hd : chanCtl DEFAULT_INSTRUMENT VOL_MAX = 0x30 := by decide
        rw [hn, hn', List.range'_succ, List.map_cons, hu, hd]
        simp
    · rw [if_neg (by omega)]
      have h0 : 9 - i = 0 := by omega
      refine ⟨hp, fun c => ?_, ?_⟩
      · rw [if_neg (by omega)]
      · simp [h0]

theorem setPercussion_false_spec (s : Device) :
    (setPercussion s false).enablePercussion = false ∧
    (∀ c, (setPercussion s false).C c =
      if c < 9 then
        { s.C c with instrument := I_PIANO, vol := VOL_MAX, state := channelState_t.IDLE }
      else s.C c) ∧
    (setPercussion s false).writes =
      s.writes ++ [(0x0e, 0x00), (0x30, 0x30), (0x31, 0x30), (0x32, 0x30), (0x33, 0x30),
        (0x34, 0x30), (0x35, 0x30), (0x36, 0x30), (0x37, 0x30), (0x38, 0x30)] := by
  have hb : ∀ t : Device, buildReg0e t false I_UNDEFINED false = 0 := fun _ => rfl
  obtain ⟨k1, k2, k3⟩ := initChannelsLoop_spec 256 0
    (send { s with enablePercussion := false } R_RHYTHM_CTL_REG 0) rfl (by omega)
  have he : setPercussion s false =
      initChannelsLoop 256 0 (send { s with enablePercussion := false } R_RHYTHM_CTL_REG 0) := by
    unfold setPercussion initChannels
    simp [hb]
  rw [he]
  refine ⟨k1, fun c => ?_, ?_⟩
  · rw [k2 c]
    simp
  · rw [k3]
    simp [List.range']

theorem setPercussion_true_eq (s : Device) :
    setPercussion s true =
      send (send (send (send (send (send
        (modC (modC (modC (modC (modC
          (send { s with enablePercussion := true } R_RHYTHM_CTL_REG 0x20)
          6 (fun c => { c with instrument := P_HI_HAT, vol := VOL_MAX }))
          7 (fun c => { c with instrument := P_TOP_CYMBAL, vol := VOL_MAX }))
          8 (fun c => { c with instrument := P_TOM_TOM, vol := VOL_MAX }))
          9 (fun c => { c with instrument := P_SNARE_DRUM, vol := VOL_MAX }))
          10 (fun c => { c with instrument := P_BASS_DRUM, vol := VOL_MAX }))
        0x16 0x20) 0x17 0x50) 0x18 0xc0) 0x26 0x07) 0x27 0x05) 0x28 0x01 := by
  have hb : ∀ t : Device, buildReg0e t true I_UNDEFINED false = 0x20 := fun _ => rfl
  have hstep : ∀ (t : Device) (i instr : Nat), t.enablePercussion = true → 6 ≤ i → i < 11 →
      (setInstrument t i instr VOL_MAX).2 =
        modC t i (fun c => { c with instrument := instr, vol := VOL_MAX }) := by
    intro t i instr hp h6 h11
    have hcount : countChannels t = 11 := by
      simp only [countChannels, isPercussion, hp]; rfl
    rw [setInstrument_ok t i instr VOL_MAX (by simp [isPercussion, hp, hcount]; omega),
      if_neg (by simp [hp]; omega)]
  unfold setPercussion
  simp only [if_true, hb, List.range', List.foldl, MAX_CHANNELS, PART_INSTR_CHANNELS,
    PERC_CHANNELS, PERC_CHAN_BASE]
  rw [hstep _ 6 _ rfl (by omega) (by omega), hstep _ 7 _ rfl (by omega) (by omega),
    hstep _ 8 _ rfl (by omega) (by omega), hstep _ 9 _ rfl (by omega) (by omega),
    hstep _ 10 _ rfl (by omega) (by omega)]
  rfl

theorem setPercussion_enablePercussion (s : Device) (enable : Bool) :
    (setPercussion s enable).enablePercussion = enable := by
  cases enable
  · exact (setPercussion_false_spec s).1
  · rw [setPercussion_true_eq]
    rfl

/-- Claim C14.  After `setPercussion(true)` there are 11 channels and
`isPercussion(chan)` holds exactly for `chan` in 6..10; after
`setPercussion(false)` there are 9 channels and `isPercussion(chan)` is false for
every `chan`. -/
theorem setPercussion_channels (s : Device) :
    countChannels (setPercussion s true) = 11 ∧
    (∀ chan, isPercussionChan (setPercussion s true) chan = true ↔ 6 ≤ chan ∧ chan ≤ 10) ∧
    countChannels (setPercussion s false) = 9 ∧
    (∀ chan, isPercussionChan (setPercussion s false) chan = false) := by
  have ht := setPercussion_enablePercussion s true
  have hf := setPercussion_enablePercussion s false
  refine ⟨?_, ?_, ?_, ?_⟩
  · simp only [countChannels, isPercussion, ht]; rfl
  · intro chan
    simp only [isPercussionChan, countChannels, isPercussion, ht, PERC_CHAN_BASE,
      MAX_CHANNELS, PART_INSTR_CHANNELS, PERC_CHANNELS, if_true, Bool.true_and,
      Bool.and_eq_true, decide_eq_true_eq]
    omega
  · simp [countChannels, isPercussion, hf]
  · intro chan
    simp [isPercussionChan, isPercussion, hf]

/-- Claim C15.  `setPercussion(true)` gives channels 6, 7, 8, 9, 10 the instruments
`P_HI_HAT`, `P_TOP_CYMBAL`, `P_TOM_TOM`, `P_SNARE_DRUM`, `P_BASS_DRUM`, that is
instrument `P_HI_HAT + (c - 6)` on channel `c`, and volume 15, changes nothing else
in the channel table, and appends to the log exactly the seven writes
`(0x0E,0x20) (0x16,0x20) (0x17,0x50) (0x18,0xC0) (0x26,0x07) (0x27,0x05) (0x28,0x01)`. -/
theorem setPercussion_true_effect (s : Device) :
    (∀ c, (setPercussion s true).C c =
      if 6 ≤ c ∧ c ≤ 10 then { s.C c with instrument := P_HI_HAT + (c - 6), vol := 15 }
      else s.C c) ∧
    ((setPercussion s true).C 6).instrument = P_HI_HAT ∧
    ((setPercussion s true).C 7).instrument = P_TOP_CYMBAL ∧
    ((setPercussion s true).C 8).instrument = P_TOM_TOM ∧
    ((setPercussion s true).C 9).instrument = P_SNARE_DRUM ∧
    ((setPercussion s true).C 10).instrument = P_BASS_DRUM ∧
    (∀ c, 6 ≤ c → c ≤ 10 → getVolume (setPercussion s true) c = 15) ∧
    (setPercussion s true).writes =
      s.writes ++ [(0x0e, 0x20), (0x16, 0x20), (0x17, 0x50), (0x18, 0xc0),
        (0x26, 0x07), (0x27, 0x05), (0x28, 0x01)] := by
  have hC : ∀ c, (setPercussion s true).C c =
      if 6 ≤ c ∧ c ≤ 10 then { s.C c with instrument := P_HI_HAT + (c - 6), vol := 15 }
      else s.C c := by
    intro c
    rw [setPercussion_true_eq]
    simp only [send_C, modC_C]
    by_cases h : 6 ≤ c ∧ c ≤ 10
    · rw [if_pos h]
      obtain ⟨h1, h2⟩ := h
      interval_cases c <;> simp
    · rw [if_neg h]
      have h6 : c ≠ 6 := by omega
      have h7 : c ≠ 7 := by omega
      have h8 : c ≠ 8 := by omega
      have h9 : c ≠ 9 := by omega
      have h10 : c ≠ 10 := by omega
      simp [h6, h7, h8, h9, h10]
  refine ⟨hC, ?_, ?_, ?_, ?_, ?_, ?_, ?_⟩
  · rw [hC]; rfl
  · rw [hC]; rfl
  · rw [hC]; rfl
  · rw [hC]; rfl
  · rw [hC]; rfl
  · intro c h6 h10
    have hcount : countChannels (setPercussion s true) = 11 := by
      simp only [countChannels, isPercussion, setPercussion_enablePercussion s true]; rfl
    unfold getVolume
    rw [hcount, if_pos (by omega), hC c, if_pos ⟨h6, h10⟩]
  · rw [setPercussion_true_eq]
    simp

/-- Claim C16.  After `setPercussion(false)`, and after `begin()`, percussion mode
is off and every channel 0..8 has instrument `I_PIANO`, volume 15 and state
`IDLE`; `setPercussion(false)` appends to the log `(0x0E,0x00)` followed by
`(0x30+i, 0x30)` for `i = 0..8`, and `begin()` puts `(0x0F,0x00)` before them. -/
theorem setPercussion_false_effect (s : Device) :
    (isPercussion (setPercussion s false) = false ∧
      (∀ c, c < 9 → getInstrument (setPercussion s false) c = I_PIANO ∧
        getVolume (setPercussion s false) c = 15 ∧ isIdle (setPercussion s false) c = true) ∧
      (setPercussion s false).writes =
        s.writes ++ (0x0e, 0x00) :: (List.range 9).map (fun i => (0x30 + i, 0x30))) ∧
    (isPercussion (begin s) = false ∧
      (∀ c, c < 9 → getInstrument (begin s) c = I_PIANO ∧
        getVolume (begin s) c = 15 ∧ isIdle (begin s) c = true) ∧
      (begin s).writes =
        s.writes ++ (0x0f, 0x00) :: (0x0e, 0x00) :: (List.range 9).map (fun i => (0x30 + i, 0x30))) := by
  have gen : ∀ t : Device, isPercussion (setPercussion t false) = false ∧
      (∀ c, c < 9 → getInstrument (setPercussion t false) c = I_PIANO ∧
        getVolume (setPercussion t false) c = 15 ∧ isIdle (setPercussion t false) c = true) ∧
      (setPercussion t false).writes =
        t.writes ++ (0x0e, 0x00) :: (List.range 9).map (fun i => (0x30 + i, 0x30)) := by
    intro t
    obtain ⟨k1, k2, k3⟩ := setPercussion_false_spec t
    have hcount : countChannels (setPercussion t false) = 9 := by
      simp [countChannels, isPercussion, k1]
    refine ⟨k1, fun c hc => ?_, ?_⟩
    · unfold getInstrument getVolume isIdle
      rw [hcount, if_pos hc, if_pos hc, if_pos hc, k2 c, if_pos hc]
      exact ⟨rfl, rfl, rfl⟩
    · rw [k3]
      rfl
  refine ⟨gen s, ?_⟩
  obtain ⟨g1, g2, g3⟩ := gen (send s R_TEST_CTL_REG 0)
  have hb : begin s = setPercussion (send s R_TEST_CTL_REG 0) false := rfl
  rw [hb]
  refine ⟨g1, g2, ?_⟩
  rw [g3]
  simp

/-! ## Frequency to block -/

theorem calcBlockScan_some (freq : Nat) : ∀ (l : List Nat) (i k : Nat),
    calcBlockScan freq l i = some k →
    ∃ n, k = i + n ∧ n < l.length ∧ freq < l.getD n 0 ∧ ∀ j, j < n → l.getD j 0 ≤ freq := by
  intro l
  induction l with
  | nil => intro i k h; simp [calcBlockScan] at h
  | cons b rest ih =>
    intro i k h
    unfold calcBlockScan at h
    split_ifs at h with hb
    · refine ⟨0, ?_, by simp, by simpa using hb, fun j hj => by omega⟩
      simp only [Option.some.injEq] at h
      omega
    · obtain ⟨n, h1, h2, h3, h4⟩ := ih (i + 1) k h
      refine ⟨n + 1, by omega, by simp [h2], by simpa using h3, ?_⟩
      intro j hj
      cases j with
      | zero => simpa using Nat.le_of_not_lt hb
      | succ j => simpa using h4 j (by omega)

theorem calcBlockScan_none (freq : Nat) : ∀ (l : List Nat) (i : Nat),
    calcBlockScan freq l i = none → ∀ j, j < l.length → l.getD j 0 ≤ freq := by
  intro l
  induction l with
  | nil => intro i _ j hj; simp at hj
  | cons b rest ih =>
    intro i h j hj
    unfold calcBlockScan at h
    split_ifs at h with hb
    cases j with
    | zero => simpa using Nat.le_of_not_lt hb
    | succ j => simpa using ih (i + 1) h j (by simpa using hj)

theorem calcBlock_cases (freq : Nat) :
    calcBlock freq =
      if freq < 65 then 1 else if freq < 130 then 2 else if freq < 261 then 3
      else if freq < 523 then 4 else if freq < 1046 then 5 else if freq < 2093 then 6
      else 7 := by
  simp only [calcBlock, blockTable, calcBlockScan, Nat.not_lt_zero, if_false]
  split_ifs <;> rfl

/-- Counterexample for C17: 64 lies in the gap from entry 0 (0) to entry 1 (65) of
the boundary table, and its block is 1, not the band index 0; likewise 65 lies
in the gap from entry 1 to entry 2 and its block is 2, not 1. -/
theorem calcBlock_not_band_index :
    blockTable.getD 0 0 ≤ 64 ∧ 64 < blockTable.getD 1 0 ∧ calcBlock 64 ≠ 0 ∧
    blockTable.getD 1 0 ≤ 65 ∧ 65 < blockTable.getD 2 0 ∧ calcBlock 65 ≠ 1 := by
  decide

/-- Claim C17, amended.  For a frequency in the gap `table[k] ≤ freq < table[k+1]`
of the boundary table (`k` in 0..6) the block is `k + 1`, the index of the upper
boundary of the gap, and it is 7 at or above 4186: 64 gives 1, 65 gives 2, 4186
gives 7, 5000 gives 7. -/
theorem calcBlock_gap :
    (∀ freq k, k < 7 → blockTable.getD k 0 ≤ freq → freq < blockTable.getD (k + 1) 0 →
      calcBlock freq = k + 1) ∧
    (∀ freq, 4186 ≤ freq → calcBlock freq = 7) ∧
    calcBlock 64 = 1 ∧ calcBlock 65 = 2 ∧ calcBlock 4186 = 7 ∧ calcBlock 5000 = 7 := by
  refine ⟨?_, ?_, by decide, by decide, by decide, by decide⟩
  · intro freq k hk hlo hhi
    rw [calcBlock_cases]
    interval_cases k <;> simp [blockTable] at hlo hhi <;> split_ifs <;> omega
  · intro f hf
    rw [calcBlock_cases]
    split_ifs <;> omega

/-- Witness for the amended C17 at 440 Hz, which lies between entries 3 (261) and
4 (523). -/
theorem calcBlock_gap_witness :
    3 < 7 ∧ blockTable.getD 3 0 ≤ 440 ∧ 440 < blockTable.getD (3 + 1) 0 ∧
    calcBlock 440 = 3 + 1 :=
  ⟨by decide, by decide, by decide,
   calcBlock_gap.1 440 3 (by decide) (by decide) (by decide)⟩

/-- Claim C20.  For every frequency, `calcBlock` returns the index of the first
entry of the boundary table that is strictly greater than the frequency, or 7
when no entry is greater; the result is at most 7. -/
theorem calcBlock_first_above (freq : Nat) :
    calcBlock freq ≤ 7 ∧
    ((∃ i, i < 8 ∧ freq < blockTable.getD i 0 ∧ (∀ j, j < i → blockTable.getD j 0 ≤ freq) ∧
        calcBlock freq = i) ∨
     ((∀ i, i < 8 → blockTable.getD i 0 ≤ freq) ∧ calcBlock freq = 7)) := by
  constructor
  · rw [calcBlock_cases]
    split_ifs <;> omega
  · unfold calcBlock
    cases h : calcBlockScan freq blockTable 0 with
    | none =>
      right
      exact ⟨fun i hi => calcBlockScan_none freq blockTable 0 h i (by simpa [blockTable] using hi),
        rfl⟩
    | some k =>
      left
      obtain ⟨n, h1, h2, h3, h4⟩ := calcBlockScan_some freq blockTable 0 k h
      have hkn : k = n := by omega
      subst hkn
      exact ⟨k, by simpa [blockTable] using h2, h3, h4, rfl⟩

/-! ## Rejected note-on by pitch -/

/-- Claim C18.  `noteOn(chan, octave, note, vol, duration)` with `note ≥ 12` or
`chan ≥ countChannels()` returns the state unchanged: no write, no change to any
channel (state and volume included). -/
theorem noteOnNote_rejected (s : Device) (now chan octave note vol duration : Nat)
    (h : note ≥ 12 ∨ chan ≥ countChannels s) :
    noteOnNote s now chan octave note vol duration = s := by
  unfold noteOnNote
  rw [if_pos (by simpa [fNumTable] using h)]

/-- Witness for C18: note number 12 on channel 0, and note 0 on channel 9, after
`begin()`. -/
theorem noteOnNote_rejected_witness :
    ((12 : Nat) ≥ 12 ∨ 0 ≥ countChannels started) ∧
    noteOnNote started 0 0 4 12 15 0 = started :=
  ⟨by decide, noteOnNote_rejected started 0 0 4 12 15 0 (by decide)⟩

/-! ## Frequency number and the note-control byte -/

theorem calcFNum_eq (freq block : Nat) :
    calcFNum freq block = freq * 2 ^ (19 - block) % 2 ^ 32 / 49715 % 2 ^ 16 := by
  unfold calcFNum
  simp only [Nat.one_shiftLeft, CLOCK_HZ]

theorem calcFNum_exact (freq block : Nat) (hp : freq * 2 ^ (19 - block) < 2 ^ 32)
    (hq : freq * 2 ^ (19 - block) < 49715 * 2 ^ 16) :
    calcFNum freq block = freq * 2 ^ (19 - block) / 49715 := by
  have hd : freq * 2 ^ (19 - block) / 49715 < 2 ^ 16 := Nat.div_lt_of_lt_mul hq
  rw [calcFNum_eq, Nat.mod_eq_of_lt hp, Nat.mod_eq_of_lt hd]

theorem calcBlock_product (freq : Nat) (h : freq < 65536) :
    freq * 2 ^ (19 - calcBlock freq) < 2 ^ 32 ∧
    freq * 2 ^ (19 - calcBlock freq) < 49715 * 2 ^ 16 := by
  rw [calcBlock_cases]
  split_ifs <;> norm_num <;> omega

theorem calcFNum_calcBlock (freq : Nat) (h : freq < 65536) :
    calcFNum freq (calcBlock freq) = freq * 2 ^ (19 - calcBlock freq) / 49715 ∧
    freq * 2 ^ (19 - calcBlock freq) < 2 ^ 32 ∧
    freq * 2 ^ (19 - calcBlock freq) / 49715 < 2 ^ 16 := by
  obtain ⟨hp, hq⟩ := calcBlock_product freq h
  exact ⟨calcFNum_exact freq _ hp hq, hp, Nat.div_lt_of_lt_mul hq⟩

theorem buildReg2x_table : ∀ o, o < 8 → ∀ (sus key bit : Bool),
    (let b := 0
     let b := if sus then u8 (b ||| (1 <<< R_INST_SUSTAIN_BIT)) else b
     let b := if key then u8 (b ||| (1 <<< R_INST_KEY_BIT)) else b
     let b := u8 (b ||| (o <<< R_INST_OCTAVE_BIT))
     let b := if bit then u8 (b ||| (1 <<< R_INST_FNUM_BIT)) else b
     b) = 32 * sus.toNat + 16 * key.toNat + 2 * o + bit.toNat := by
  decide

theorem and_0x100 (fNum : Nat) : (fNum &&& 0x100 ≠ 0) ↔ fNum / 256 % 2 = 1 := by
  have h : fNum &&& 2 ^ 8 = (fNum.testBit 8).toNat * 2 ^ 8 := Nat.and_two_pow fNum 8
  have h2 : fNum.testBit 8 = decide (fNum / 2 ^ 8 % 2 = 1) := Nat.testBit_to_div_mod
  norm_num at h h2
  rw [h]
  cases hb : fNum.testBit 8 <;> simp [hb] at h2 ⊢ <;> omega

theorem buildReg2x_eq (susOn keyOn : Bool) (octave fNum : Nat) :
    buildReg2x susOn keyOn octave fNum =
      32 * susOn.toNat + 16 * keyOn.toNat + 2 * (octave % 8) + fNum / 256 % 2 := by
  have ho : octave &&& 0x7 = octave % 8 := Nat.and_pow_two_sub_one_eq_mod octave 3
  have hlt : octave % 8 < 8 := Nat.mod_lt _ (by decide)
  have hbit : (decide (fNum &&& 0x100 ≠ 0)).toNat = fNum / 256 % 2 := by
    by_cases hb : fNum &&& 0x100 ≠ 0
    · have := (and_0x100 fNum).1 hb
      simp [hb, this]
    · have h1 : ¬ (fNum / 256 % 2 = 1) := fun h => hb ((and_0x100 fNum).2 h)
      have : fNum / 256 % 2 = 0 := by omega
      simp [hb, this]
  have key := buildReg2x_table (octave % 8) hlt susOn keyOn (decide (fNum &&& 0x100 ≠ 0))
  rw [hbit] at key
  rw [← key]
  unfold buildReg2x
  simp only [ho, decide_eq_true_eq]

/-- Claim C21.  For a 16-bit frequency and `block = calcBlock(freq)`, `calcFNum`
returns exactly `freq * 2^(19-block) / 49715` (natural-number division, that is
the floor), where `49715 = 3579545 / 72`: the product is below `2^32` and the
quotient below `2^16`, so neither conversion changes the value.  For 440 Hz the
block is 4 and the result 290; 441 Hz gives 290 too (290.67 truncated). -/
theorem calcFNum_exact_floor (freq : Nat) (h : freq < 65536) :
    CLOCK_HZ / 72 = 49715 ∧
    calcFNum freq (calcBlock freq) = freq * 2 ^ (19 - calcBlock freq) / 49715 ∧
    freq * 2 ^ (19 - calcBlock freq) < 2 ^ 32 ∧
    freq * 2 ^ (19 - calcBlock freq) / 49715 < 2 ^ 16 ∧
    calcBlock 440 = 4 ∧ calcFNum 440 4 = 290 ∧ calcFNum 441 (calcBlock 441) = 290 := by
  obtain ⟨h1, h2, h3⟩ := calcFNum_calcBlock freq h
  exact ⟨by decide, h1, h2, h3, by decide, by decide, by decide⟩

/-- Witness for C21 at the largest 16-bit frequency. -/
theorem calcFNum_exact_floor_witness :
    65535 < 65536 ∧
    calcFNum 65535 (calcBlock 65535) = 65535 * 2 ^ (19 - calcBlock 65535) / 49715 :=
  ⟨by decide, (calcFNum_exact_floor 65535 (by decide)).2.1⟩

/-- Claim C22.  For all inputs `buildReg2x` is
`32*[sustain] + 16*[keyOn] + 2*(octave mod 8) + ((fNum div 256) mod 2)`: the
sustain flag is bit 5, key-on bit 4, the block bits 1..3, bit 8 of `fNum` bit 0,
and bits 6 and 7 are 0. -/
theorem buildReg2x_layout (susOn keyOn : Bool) (octave fNum : Nat) :
    buildReg2x susOn keyOn octave fNum =
      32 * susOn.toNat + 16 * keyOn.toNat + 2 * (octave % 8) + fNum / 256 % 2 ∧
    buildReg2x susOn keyOn octave fNum / 32 % 2 = susOn.toNat ∧
    buildReg2x susOn keyOn octave fNum / 16 % 2 = keyOn.toNat ∧
    buildReg2x susOn keyOn octave fNum / 2 % 8 = octave % 8 ∧
    buildReg2x susOn keyOn octave fNum % 2 = fNum / 256 % 2 ∧
    buildReg2x susOn keyOn octave fNum / 64 = 0 := by
  have hs : susOn.toNat ≤ 1 := Bool.toNat_le susOn
  have hk : keyOn.toNat ≤ 1 := Bool.toNat_le keyOn
  have he := buildReg2x_eq susOn keyOn octave fNum
  refine ⟨he, ?_, ?_, ?_, ?_, ?_⟩ <;> omega

theorem fNum_bounds (freq : Nat) :
    (freq ≤ 6214 → calcFNum freq (calcBlock freq) < 512) ∧
    (freq ≤ 4185 → calcFNum freq (calcBlock freq) ≤ 344) ∧
    (6215 ≤ freq → freq < 65536 → 512 ≤ calcFNum freq (calcBlock freq)) := by
  by_cases h16 : freq < 65536
  · rw [(calcFNum_calcBlock freq h16).1, calcBlock_cases]
    split_ifs <;> norm_num <;> omega
  · exact ⟨fun h => by omega, fun h => by omega, fun _ h => by omega⟩

/-- Claim C28.  For every frequency up to 6214 Hz the frequency number of the
frequency API is below 512 (and at most 344 up to 4185 Hz), so the low byte
written to `0x10+chan` and bit 0 of the note-control byte give it back; from
6215 Hz on (16-bit frequencies) it is at least 512 and the two written parts
give only its value modulo 512. -/
theorem fNum_nine_bits (freq : Nat) (susOn keyOn : Bool) :
    (freq ≤ 6214 → calcFNum freq (calcBlock freq) < 512 ∧
      (calcFNum freq (calcBlock freq) &&& 0xff) +
        256 * (buildReg2x susOn keyOn (calcBlock freq) (calcFNum freq (calcBlock freq)) % 2)
        = calcFNum freq (calcBlock freq)) ∧
    (freq ≤ 4185 → calcFNum freq (calcBlock freq) ≤ 344) ∧
    (6215 ≤ freq → freq < 65536 → 512 ≤ calcFNum freq (calcBlock freq) ∧
      (calcFNum freq (calcBlock freq) &&& 0xff) +
        256 * (buildReg2x susOn keyOn (calcBlock freq) (calcFNum freq (calcBlock freq)) % 2)
        = calcFNum freq (calcBlock freq) % 512 ∧
      calcFNum freq (calcBlock freq) % 512 < calcFNum freq (calcBlock freq)) ∧
    calcFNum 6214 (calcBlock 6214) = 511 ∧ calcFNum 6215 (calcBlock 6215) = 512 := by
  obtain ⟨b1, b2, b3⟩ := fNum_bounds freq
  have hlow : ∀ n : Nat, n &&& 0xff = n % 256 := fun n => Nat.and_pow_two_sub_one_eq_mod n 8
  have hbit : ∀ n : Nat, buildReg2x susOn keyOn (calcBlock freq) n % 2 = n / 256 % 2 := by
    intro n
    rw [buildReg2x_eq]
    omega
  refine ⟨fun h => ⟨b1 h, ?_⟩, b2, fun h1 h2 => ⟨b3 h1 h2, ?_, ?_⟩, by decide, by decide⟩
  · have := b1 h
    rw [hlow, hbit]
    omega
  · rw [hlow, hbit]
    omega
  · have := b3 h1 h2
    omega

/-- Witness for C28 at 6214 Hz and at 6215 Hz. -/
theorem fNum_nine_bits_witness :
    (6214 ≤ 6214 ∧ calcFNum 6214 (calcBlock 6214) < 512) ∧
    (6215 ≤ 6215 ∧ 6215 < 65536 ∧ 512 ≤ calcFNum 6215 (calcBlock 6215)) :=
  ⟨⟨by decide, ((fNum_nine_bits 6214 false true).1 (by decide)).1⟩,
   ⟨by decide, by decide, ((fNum_nine_bits 6215 false true).2.2.1 (by decide) (by decide)).1⟩⟩

/-! ## Melodic channels: volume, note on, note off -/

theorem isPercussionChan_congr (s t : Device) (chan : Nat)
    (hp : t.enablePercussion = s.enablePercussion) :
    isPercussionChan t chan = isPercussionChan s chan := by
  simp only [isPercussionChan, isPercussion, hp, countChannels_congr s t hp]

theorem melodic_addressed (s : Device) (chan : Nat) (hc : chan < countChannels s)
    (hm : isPercussionChan s chan = false) :
    s.enablePercussion = false ∨ (s.enablePercussion = true ∧ chan < 6) := by
  cases hp : s.enablePercussion
  · exact Or.inl rfl
  · right
    refine ⟨rfl, ?_⟩
    simp only [isPercussionChan, isPercussion, hp, PERC_CHAN_BASE, Bool.true_and,
      Bool.and_eq_false_iff, decide_eq_false_iff_not] at hm
    omega

theorem u8_base (base chan : Nat) (hb : base ≤ 0x30) (hc : chan < 11) :
    u8 (base + chan) = base + chan := by
  unfold u8
  omega

theorem volumeWrite_melodic (u : Device) (chan : Nat) (hc : chan < 11)
    (hm : u.enablePercussion = false ∨ (u.enablePercussion = true ∧ chan < 6)) :
    volumeWrite u chan = (0x30 + chan, chanCtl (u.C chan).instrument (u.C chan).vol) := by
  unfold volumeWrite
  rw [if_pos (by simpa [isPercussion, PERC_CHAN_BASE] using hm),
    u8_base R_CHAN_CTL_BASE_REG chan (by decide) hc]

theorem setVolume_melodic (s : Device) (chan v : Nat) (hc : chan < countChannels s)
    (hm : isPercussionChan s chan = false) :
    setVolume s chan v =
      send (modC s chan (fun c => { c with vol := min v 15 }))
        (0x30 + chan) (chanCtl (s.C chan).instrument (min v 15)) := by
  have h11 : chan < 11 := by have := countChannels_le s; omega
  rw [setVolume_eq s chan v hc,
    volumeWrite_melodic _ chan h11 (by simpa using melodic_addressed s chan hc hm)]
  simp

/-- Claim C23.  On a valid channel that is not a percussion channel,
`setVolume(chan, v)` appends exactly one write, to register `0x30+chan`; for a
stored instrument `i ≤ 15` its value is `16*i + (15 - min v 15)`, instrument in
the high nibble and attenuation in the low nibble, so a larger volume gives a
smaller attenuation. -/
theorem setVolume_melodic_write (s : Device) (chan v : Nat) (hc : chan < countChannels s)
    (hm : isPercussionChan s chan = false) :
    (setVolume s chan v).writes =
      s.writes ++ [(0x30 + chan, chanCtl (s.C chan).instrument (min v 15))] ∧
    ((s.C chan).instrument ≤ 15 →
      chanCtl (s.C chan).instrument (min v 15) = 16 * (s.C chan).instrument + (15 - min v 15) ∧
      chanCtl (s.C chan).instrument (min v 15) / 16 = (s.C chan).instrument ∧
      chanCtl (s.C chan).instrument (min v 15) % 16 = 15 - min v 15 ∧
      ∀ w, v ≤ w →
        chanCtl (s.C chan).instrument (min w 15) ≤ chanCtl (s.C chan).instrument (min v 15)) := by
  refine ⟨?_, fun hi => ?_⟩
  · rw [setVolume_melodic s chan v hc hm]
    simp
  · have e1 := chanCtl_table _ hi (min v 15) (by omega)
    refine ⟨e1, by omega, by omega, fun w hw => ?_⟩
    have e2 := chanCtl_table _ hi (min w 15) (by omega)
    omega

/-- Witness for C23: volume 10 on channel 3 (instrument `I_PIANO`) after `begin()`. -/
theorem setVolume_melodic_write_witness :
    3 < countChannels started ∧ isPercussionChan started 3 = false ∧
    (setVolume started 3 10).writes =
      started.writes ++ [(0x30 + 3, chanCtl (started.C 3).instrument (min 10 15))] :=
  ⟨by decide, by decide, (setVolume_melodic_write started 3 10 (by decide) (by decide)).1⟩

theorem noteOn_melodic_eq (s : Device) (now chan freq vol duration : Nat)
    (hc : chan < countChannels s) (hm : isPercussionChan s chan = false) :
    noteOn s now chan freq vol duration =
      modC (send (send
        (modC (send (modC s chan (fun c => { c with vol := min vol 15 }))
            (0x30 + chan) (chanCtl (s.C chan).instrument (min vol 15))) chan
          (fun c => { c with octave := calcBlock freq,
                             fNum := calcFNum freq (calcBlock freq) }))
        (0x10 + chan) (calcFNum freq (calcBlock freq) % 256))
        (0x20 + chan)
        (buildReg2x (s.C chan).sustain true (calcBlock freq) (calcFNum freq (calcBlock freq))))
        chan (fun c => { c with frequency := freq, duration := duration, timeBase := now,
                                state := channelState_t.SUSTAIN }) := by
  have h11 : chan < 11 := by have := countChannels_le s; omega
  have hm2 : isPercussionChan (setVolume s chan vol) chan = false := by
    rw [isPercussionChan_congr s _ chan (setVolume_enablePercussion s chan vol)]; exact hm
  have hlow : ∀ n : Nat, n &&& 0xff = n % 256 := fun n => Nat.and_pow_two_sub_one_eq_mod n 8
  unfold noteOn
  rw [if_neg (by omega)]
  simp only []
  rw [if_pos hm2, setVolume_melodic s chan vol hc hm,
    u8_base R_FNUM_BASE_REG chan (by decide) h11,
    u8_base R_INST_CTL_BASE_REG chan (by decide) h11]
  simp only [modC_C, send_C, if_true, hlow]
  apply Device.ext_fields
  · funext i
    simp only [modC_C, send_C]
    split_ifs <;> rfl
  · rfl
  · simp
  · simp
  · rfl

/-- Claim C24.  On a valid channel that is not a percussion channel, `noteOn` by
frequency at time `now` appends, in order, the channel-control write to
`0x30+chan`, `(0x10+chan, fNum mod 256)` and
`(0x20+chan, buildReg2x(sustain, true, block, fNum))` with `block = calcBlock(freq)`
and `fNum = calcFNum(freq, block)`; afterwards the channel is in `SUSTAIN` with
volume `min vol 15`, the given duration, start time `now` and frequency `freq`, and
every other channel is unchanged. -/
theorem noteOn_melodic (s : Device) (now chan freq vol duration : Nat)
    (hc : chan < countChannels s) (hm : isPercussionChan s chan = false) :
    (noteOn s now chan freq vol duration).writes =
      s.writes ++ [(0x30 + chan, chanCtl (s.C chan).instrument (min vol 15)),
        (0x10 + chan, calcFNum freq (calcBlock freq) % 256),
        (0x20 + chan,
          buildReg2x (s.C chan).sustain true (calcBlock freq)
            (calcFNum freq (calcBlock freq)))] ∧
    (noteOn s now chan freq vol duration).C chan =
      { s.C chan with vol := min vol 15, octave := calcBlock freq,
                      fNum := calcFNum freq (calcBlock freq), frequency := freq,
                      duration := duration, timeBase := now,
                      state := channelState_t.SUSTAIN } ∧
    (∀ c, c ≠ chan → (noteOn s now chan freq vol duration).C c = s.C c) ∧
    isIdle (noteOn s now chan freq vol duration) chan = false ∧
    getVolume (noteOn s now chan freq vol duration) chan = min vol 15 := by
  have hc2 : chan < countChannels (noteOn s now chan freq vol duration) := by
    rw [countChannels_congr s _ (noteOn_enablePercussion s now chan freq vol duration)]
    exact hc
  have hC : (noteOn s now chan freq vol duration).C chan =
      { s.C chan with vol := min vol 15, octave := calcBlock freq,
                      fNum := calcFNum freq (calcBlock freq), frequency := freq,
                      duration := duration, timeBase := now,
                      state := channelState_t.SUSTAIN } := by
    rw [noteOn_melodic_eq s now chan freq vol duration hc hm]
    simp
  refine ⟨?_, hC, ?_, ?_, ?_⟩
  · rw [noteOn_melodic_eq s now chan freq vol duration hc hm]
    simp
  · intro c hne
    rw [noteOn_melodic_eq s now chan freq vol duration hc hm]
    simp [hne]
  · rw [isIdle_eq _ _ hc2, hC]
    rfl
  · unfold getVolume
    rw [if_pos hc2, hC]

/-- Witness for C24: 440 Hz on channel 2 after `begin()`. -/
theorem noteOn_melodic_witness :
    2 < countChannels started ∧ isPercussionChan started 2 = false ∧
    (noteOn started 7 2 440 12 100).writes =
      started.writes ++ [(0x30 + 2, chanCtl (started.C 2).instrument (min 12 15)),
        (0x10 + 2, calcFNum 440 (calcBlock 440) % 256),
        (0x20 + 2,
          buildReg2x (started.C 2).sustain true (calcBlock 440)
            (calcFNum 440 (calcBlock 440)))] :=
  ⟨by decide, by decide, (noteOn_melodic started 7 2 440 12 100 (by decide) (by decide)).1⟩

theorem noteOnNote_melodic_eq (s : Device) (now chan octave note vol duration : Nat)
    (hc : chan < countChannels s) (hm : isPercussionChan s chan = false) (hn : note < 12) :
    noteOnNote s now chan octave note vol duration =
      modC (send (modC (send (send
        (modC s chan (fun c => { c with octave := min (max octave 1) 8,
                                        fNum := fNumTable.getD note 0 }))
        (0x10 + chan) (fNumTable.getD note 0 % 256))
        (0x20 + chan)
        (buildReg2x (s.C chan).sustain true (min (max octave 1) 8) (fNumTable.getD note 0)))
        chan (fun c => { c with vol := min vol 15 }))
        (0x30 + chan) (chanCtl (s.C chan).instrument (min vol 15)))
        chan (fun c => { c with frequency := 0, duration := duration, timeBase := now,
                                state := channelState_t.SUSTAIN }) := by
  have h11 : chan < 11 := by have := countChannels_le s; omega
  have hlow : ∀ n : Nat, n &&& 0xff = n % 256 := fun n => Nat.and_pow_two_sub_one_eq_mod n 8
  have hoct : (if (if octave < MIN_OCTAVE then MIN_OCTAVE else octave) > MAX_OCTAVE
      then MAX_OCTAVE else (if octave < MIN_OCTAVE then MIN_OCTAVE else octave))
      = min (max octave 1) 8 := by
    simp only [MIN_OCTAVE, MAX_OCTAVE]
    split_ifs <;> omega
  have hnote : min note (fNumTable.length - 1) = note := by
    simp only [fNumTable, List.length_cons, List.length_nil]
    omega
  unfold noteOnNote
  rw [if_neg (by simp only [fNumTable, List.length_cons, List.length_nil]; omega)]
  simp only []
  rw [if_pos hm, hoct, hnote, u8_base R_FNUM_BASE_REG chan (by decide) h11,
    u8_base R_INST_CTL_BASE_REG chan (by decide) h11]
  simp only [modC_C, send_C, if_true, hlow]
  rw [setVolume_melodic _ chan vol (by
      rw [countChannels_congr s _ (by simp)]; exact hc) (by
      rw [isPercussionChan_congr s _ chan (by simp)]; exact hm)]
  apply Device.ext_fields
  · funext i
    simp only [modC_C, send_C]
    split_ifs <;> rfl
  · rfl
  · simp
  · simp
  · rfl

/-- Claim C25.  On a valid channel that is not a percussion channel and for a note
number below 12, `noteOn` by pitch stores the octave clamped to 1..8 and
`fNum = table[note]`, sets the stored frequency to 0, appends
`(0x10+chan, fNum mod 256)`, then the key-on note-control byte to `0x20+chan`
(and after them the channel-control write to `0x30+chan`), and leaves the channel
in `SUSTAIN` with the given duration and start time. -/
theorem noteOnNote_melodic (s : Device) (now chan octave note vol duration : Nat)
    (hc : chan < countChannels s) (hm : isPercussionChan s chan = false) (hn : note < 12) :
    (noteOnNote s now chan octave note vol duration).C chan =
      { s.C chan with octave := min (max octave 1) 8, fNum := fNumTable.getD note 0,
                      vol := min vol 15, frequency := 0, duration := duration,
                      timeBase := now, state := channelState_t.SUSTAIN } ∧
    fNumTable = [172, 183, 194, 205, 217, 230, 244, 258, 274, 290, 307, 326] ∧
    (noteOnNote s now chan octave note vol duration).writes =
      s.writes ++ [(0x10 + chan, fNumTable.getD note 0 % 256),
        (0x20 + chan,
          buildReg2x (s.C chan).sustain true (min (max octave 1) 8) (fNumTable.getD note 0)),
        (0x30 + chan, chanCtl (s.C chan).instrument (min vol 15))] ∧
    buildReg2x (s.C chan).sustain true (min (max octave 1) 8) (fNumTable.getD note 0) / 16 % 2
      = 1 ∧
    (∀ c, c ≠ chan → (noteOnNote s now chan octave note vol duration).C c = s.C c) ∧
    isIdle (noteOnNote s now chan octave note vol duration) chan = false := by
  have hc2 : chan < countChannels (noteOnNote s now chan octave note vol duration) := by
    rw [countChannels_congr s _
      (noteOnNote_enablePercussion s now chan octave note vol duration)]
    exact hc
  have hC : (noteOnNote s now chan octave note vol duration).C chan =
      { s.C chan with octave := min (max octave 1) 8, fNum := fNumTable.getD note 0,
                      vol := min vol 15, frequency := 0, duration := duration,
                      timeBase := now, state := channelState_t.SUSTAIN } := by
    rw [noteOnNote_melodic_eq s now chan octave note vol duration hc hm hn]
    simp
  refine ⟨hC, rfl, ?_, ?_, ?_, ?_⟩
  · rw [noteOnNote_melodic_eq s now chan octave note vol duration hc hm hn]
    simp
  · rw [buildReg2x_eq]
    have := Bool.toNat_le (s.C chan).sustain
    simp only [Bool.toNat_true]
    omega
  · intro c hne
    rw [noteOnNote_melodic_eq s now chan octave note vol duration hc hm hn]
    simp [hne]
  · rw [isIdle_eq _ _ hc2, hC]
    rfl

/-- Witness for C25: octave 4, note 9 (A) on channel 1 after `begin()`. -/
theorem noteOnNote_melodic_witness :
    1 < countChannels started ∧ isPercussionChan started 1 = false ∧ 9 < 12 ∧
    (noteOnNote started 5 1 4 9 15 250).writes =
      started.writes ++ [(0x10 + 1, fNumTable.getD 9 0 % 256),
        (0x20 + 1,
          buildReg2x (started.C 1).sustain true (min (max 4 1) 8) (fNumTable.getD 9 0)),
        (0x30 + 1, chanCtl (started.C 1).instrument (min 15 15))] :=
  ⟨by decide, by decide, by decide,
   (noteOnNote_melodic started 5 1 4 9 15 250 (by decide) (by decide) (by decide)).2.2.1⟩

/-- Claim C30.  For `noteOn` by pitch on a valid channel that is not a percussion
channel (note number below 12), the block field, bits 1..3 of the byte written to
`0x20+chan`, is the clamped octave when the octave argument is at most 7 (so
clamps into 1..7), and is 0 when the octave argument is 8 or more, although the
stored octave is then 8: the octave is reduced modulo 8 when packed. -/
theorem noteOnNote_block_field (s : Device) (now chan octave note vol duration : Nat)
    (hc : chan < countChannels s) (hm : isPercussionChan s chan = false) (hn : note < 12) :
    ∃ d : Nat,
      (noteOnNote s now chan octave note vol duration).writes =
        s.writes ++ [(0x10 + chan, fNumTable.getD note 0 % 256), (0x20 + chan, d),
          (0x30 + chan, chanCtl (s.C chan).instrument (min vol 15))] ∧
      (octave ≤ 7 →
        ((noteOnNote s now chan octave note vol duration).C chan).octave = max octave 1 ∧
        d / 2 % 8 = max octave 1) ∧
      (8 ≤ octave →
        ((noteOnNote s now chan octave note vol duration).C chan).octave = 8 ∧
        d / 2 % 8 = 0) := by
  have he := noteOnNote_melodic_eq s now chan octave note vol duration hc hm hn
  refine ⟨buildReg2x (s.C chan).sustain true (min (max octave 1) 8) (fNumTable.getD note 0),
    ?_, ?_, ?_⟩
  · rw [he]; simp
  · intro h7
    have hb : buildReg2x (s.C chan).sustain true (min (max octave 1) 8)
        (fNumTable.getD note 0) / 2 % 8 = min (max octave 1) 8 % 8 := by
      have := Bool.toNat_le (s.C chan).sustain
      rw [buildReg2x_eq]
      simp only [Bool.toNat_true]
      omega
    rw [he, hb]
    simp only [modC_C, send_C, if_true]
    omega
  · intro h8
    have hb : buildReg2x (s.C chan).sustain true (min (max octave 1) 8)
        (fNumTable.getD note 0) / 2 % 8 = min (max octave 1) 8 % 8 := by
      have := Bool.toNat_le (s.C chan).sustain
      rw [buildReg2x_eq]
      simp only [Bool.toNat_true]
      omega
    rw [he, hb]
    simp only [modC_C, send_C, if_true]
    omega

/-- Witness for C30: octave 8, note 0 on channel 0 after `begin()`; the byte
written to `0x20` is `0x10`, block field 0. -/
theorem noteOnNote_block_field_witness :
    0 < countChannels started ∧ isPercussionChan started 0 = false ∧ 0 < 12 ∧
    ((noteOnNote started 0 0 8 0 15 0).C 0).octave = 8 ∧
    (noteOnNote started 0 0 8 0 15 0).writes =
      started.writes ++ [(0x10, 172), (0x20, 0x10), (0x30, 0x30)] ∧
    ∃ d : Nat,
      (noteOnNote started 0 0 8 0 15 0).writes =
        started.writes ++ [(0x10 + 0, fNumTable.getD 0 0 % 256), (0x20 + 0, d),
          (0x30 + 0, chanCtl (started.C 0).instrument (min 15 15))] ∧
      (8 ≤ 7 →
        ((noteOnNote started 0 0 8 0 15 0).C 0).octave = max 8 1 ∧ d / 2 % 8 = max 8 1) ∧
      (8 ≤ 8 →
        ((noteOnNote started 0 0 8 0 15 0).C 0).octave = 8 ∧ d / 2 % 8 = 0) :=
  ⟨by decide, by decide, by decide, by decide, by decide,
   noteOnNote_block_field started 0 0 8 0 15 0 (by decide) (by decide) (by decide)⟩

theorem noteOff_melodic_eq (s : Device) (chan : Nat)
    (hc : chan < countChannels s) (hm : isPercussionChan s chan = false) :
    noteOff s chan =
      modC (send (send (modC s chan (fun c => { c with vol := 0 }))
        (0x30 + chan) (chanCtl (s.C chan).instrument 0))
        (0x20 + chan)
        (buildReg2x (s.C chan).sustain false (s.C chan).octave (s.C chan).fNum))
        chan (fun c => { c with state := channelState_t.IDLE }) := by
  have h11 : chan < 11 := by have := countChannels_le s; omega
  have hm2 : isPercussionChan (setVolume s chan VOL_OFF) chan = false := by
    rw [isPercussionChan_congr s _ chan (setVolume_enablePercussion s chan VOL_OFF)]; exact hm
  rw [noteOff_eq]
  unfold keyWrite
  rw [if_pos hm2, setVolume_melodic s chan VOL_OFF hc hm,
    u8_base R_INST_CTL_BASE_REG chan (by decide) h11]
  simp only [modC_C, send_C, if_true]
  rfl

/-- Claim C27.  On a valid channel that is not a percussion channel, whatever its
state, `noteOff` stores volume 0, appends the silence write to `0x30+chan` and
then the key-off byte `buildReg2x(sustain, false, octave, fNum)` to `0x20+chan`,
which is the key-on byte of the same stored octave and `fNum` minus the key bit
(16), and leaves the channel `IDLE` with every other channel unchanged. -/
theorem noteOff_melodic (s : Device) (chan : Nat)
    (hc : chan < countChannels s) (hm : isPercussionChan s chan = false) :
    getVolume (noteOff s chan) chan = 0 ∧
    (noteOff s chan).writes =
      s.writes ++ [(0x30 + chan, chanCtl (s.C chan).instrument 0),
        (0x20 + chan,
          buildReg2x (s.C chan).sustain false (s.C chan).octave (s.C chan).fNum)] ∧
    ((s.C chan).instrument ≤ 15 →
      chanCtl (s.C chan).instrument 0 = 16 * (s.C chan).instrument + 15) ∧
    buildReg2x (s.C chan).sustain true (s.C chan).octave (s.C chan).fNum =
      buildReg2x (s.C chan).sustain false (s.C chan).octave (s.C chan).fNum + 16 ∧
    buildReg2x (s.C chan).sustain false (s.C chan).octave (s.C chan).fNum / 16 % 2 = 0 ∧
    (noteOff s chan).C chan = silenced (s.C chan) ∧
    isIdle (noteOff s chan) chan = true ∧
    (∀ c, c ≠ chan → (noteOff s chan).C c = s.C c) := by
  have hc2 : chan < countChannels (noteOff s chan) := by
    rw [countChannels_noteOff]; exact hc
  have hC : (noteOff s chan).C chan = silenced (s.C chan) := by
    rw [noteOff_C s chan hc, if_pos rfl]
  have hs := Bool.toNat_le (s.C chan).sustain
  refine ⟨?_, ?_, ?_, ?_, ?_, hC, ?_, fun c hne => noteOff_C_other s chan c hne⟩
  · unfold getVolume
    rw [if_pos hc2, hC]
    rfl
  · rw [noteOff_melodic_eq s chan hc hm]
    simp
  · intro hi
    exact chanCtl_table _ hi 0 (by omega)
  · rw [buildReg2x_eq, buildReg2x_eq]
    simp only [Bool.toNat_true, Bool.toNat_false]
    omega
  · rw [buildReg2x_eq]
    simp only [Bool.toNat_false]
    omega
  · rw [isIdle_eq _ _ hc2, hC]
    rfl

/-- Witness for C27: `noteOff(2)` on a sounding channel 2 after `begin()`. -/
theorem noteOff_melodic_witness :
    2 < countChannels (noteOn started 0 2 440 15 0) ∧
    isPercussionChan (noteOn started 0 2 440 15 0) 2 = false ∧
    getVolume (noteOff (noteOn started 0 2 440 15 0) 2) 2 = 0 ∧
    isIdle (noteOff (noteOn started 0 2 440 15 0) 2) 2 = true :=
  ⟨by decide, by decide,
   (noteOff_melodic (noteOn started 0 2 440 15 0) 2 (by decide) (by decide)).1,
   (noteOff_melodic (noteOn started 0 2 440 15 0) 2 (by decide) (by decide)).2.2.2.2.2.2.1⟩

/-! ## Percussion channels: keying through the rhythm register -/

theorem isIdle_run_sustain (s : Device) (chan t : Nat) (hc : chan < countChannels s)
    (hs : (s.C chan).state = channelState_t.SUSTAIN) :
    isIdle (run s t) chan = true ↔ noteDue s t chan = true := by
  rw [isIdle_eq _ _ (by rw [countChannels_run]; exact hc), run_C]
  by_cases hd : noteDue s t chan = true
  · rw [if_pos ⟨hc, hd⟩]
    simp [silenced, hd]
  · rw [if_neg (fun h => hd h.2), hs]
    simp [hd]

/-- Claim C29.  For a channel sounding a note started at counter value `T` with
duration `d > 0`, `run` at counter value `t` takes the elapsed time as
`(t - T) mod 2^32` and leaves the channel idle exactly when that value is at least
`d`.  Hence at the counter value reached `e` ms after the start, `(T + e) mod 2^32`,
the note is turned off exactly when `d ≤ e`, also when the counter has wrapped
in between. -/
theorem run_expiry_wraps (s : Device) (chan T d : Nat) (hc : chan < countChannels s)
    (hs : (s.C chan).state = channelState_t.SUSTAIN)
    (hd : (s.C chan).duration = d) (hd0 : 0 < d)
    (hT : (s.C chan).timeBase = T) (hT32 : T < 2 ^ 32) :
    (∀ t, t < 2 ^ 32 →
      (((t + 2 ^ 32 - T) % 2 ^ 32 : Nat) : Int) = ((t : Int) - (T : Int)) % 2 ^ 32 ∧
      (isIdle (run s t) chan = true ↔ d ≤ (t + 2 ^ 32 - T) % 2 ^ 32)) ∧
    (∀ e, e < 2 ^ 32 → (isIdle (run s ((T + e) % 2 ^ 32)) chan = true ↔ d ≤ e)) := by
  have key : ∀ t, isIdle (run s t) chan = true ↔ d ≤ (t + 2 ^ 32 - T) % 2 ^ 32 := by
    intro t
    rw [isIdle_run_sustain s chan t hc hs]
    simp only [noteDue, hs, hd, hT, decide_eq_true_eq]
    constructor
    · intro h; exact h.2.2
    · intro h; exact ⟨trivial, by omega, h⟩
  constructor
  · intro t ht
    refine ⟨?_, key t⟩
    omega
  · intro e he
    rw [key]
    have : ((T + e) % 2 ^ 32 + 2 ^ 32 - T) % 2 ^ 32 = e := by omega
    rw [this]

/-- Witness for C29: a note of 100 ms started 10 ms before the counter wraps is
still sounding at counter value 89 (99 ms later) and idle at 90 (100 ms later). -/
theorem run_expiry_wraps_witness :
    2 < countChannels (noteOn started 4294967286 2 440 15 100) ∧
    ((noteOn started 4294967286 2 440 15 100).C 2).state = channelState_t.SUSTAIN ∧
    ((noteOn started 4294967286 2 440 15 100).C 2).duration = 100 ∧ 0 < 100 ∧
    ((noteOn started 4294967286 2 440 15 100).C 2).timeBase = 4294967286 ∧
    4294967286 < 2 ^ 32 ∧
    isIdle (run (noteOn started 4294967286 2 440 15 100) 89) 2 = false ∧
    isIdle (run (noteOn started 4294967286 2 440 15 100) 90) 2 = true ∧
    (isIdle (run (noteOn started 4294967286 2 440 15 100) ((4294967286 + 100) % 2 ^ 32)) 2
      = true ↔ 100 ≤ 100) :=
  ⟨by decide, by decide, by decide, by decide, by decide, by decide, by decide, by decide,
   (run_expiry_wraps (noteOn started 4294967286 2 440 15 100) 2 4294967286 100
      (by decide) (by decide) (by decide) (by decide) (by decide) (by decide)).2 100
      (by decide)⟩

end MD_YM2413
